import Mathlib

/-!
Shallow embedding of the OpenNEM time-window / aggregation core, and proofs of
the specification claims C1..C10 about it.

Conventions of the embedding:
* Naive timestamps are minutes since 1970-01-01 00:00 (wall clock), as `Int`.
* Dates are day numbers since 1970-01-01 (`daysFromCivil`).
* Numeric telemetry values are `Int`; Python `None` is `Option.none`.
* Python truthiness is modelled explicitly where the source relies on it
  (`if i`, `if self.offset`, `if not data.id` ...).
* Fallible Python code (exceptions such as `UnboundLocalError` or
  `AttributeError`) is modelled with `Except String`.
-/

/-- A timezone value as used by the code: either a `pytz.FixedOffset` (minutes),
a named `pytz` timezone, or the system default timezone. -/
inductive Tz where
  | fixedOffset (minutes : Int)
  | named (name : String)
  | system
deriving DecidableEq

/-- Truthiness of a timezone object. `pytz` timezone objects (FixedOffset and
named zones) and the system tzinfo are plain Python objects and are always
truthy. -/
def tzTruthy : Tz → Bool
  | _ => true

/-- A datetime: a naive wall-clock value in minutes plus an optional attached
timezone (`tzinfo`). `tz = none` models a naive datetime. -/
structure Timestamp where
  naive : Int
  tz : Option Tz := none
deriving DecidableEq

/-- Models `opennem.utils.timezone.is_aware` (helper not present under src/):
a datetime is aware iff it carries a tzinfo. This is the standard Python
definition. -/
def is_aware (t : Timestamp) : Bool :=
  t.tz.isSome

/-- Modelled from the spec: "Every returned timestamp must carry explicit
timezone information". `opennem.utils.timezone.make_aware` (not under src/)
attaches the given timezone to a naive datetime without shifting the wall
clock. -/
def make_aware (t : Timestamp) (tz : Tz) : Timestamp :=
  { t with tz := some tz }

/-- `datetime.astimezone(pytz.FixedOffset o2)` for an aware datetime whose own
timezone is a fixed offset: the instant is preserved, so the wall clock shifts
by the offset difference. The source only ever calls this with a fixed-offset
source timezone; other source timezones are left unmodelled (error). -/
def Timestamp.astimezoneFixed (t : Timestamp) (o2 : Int) : Except String Timestamp :=
  match t.tz with
  | some (Tz.fixedOffset o1) => Except.ok ⟨t.naive - o1 + o2, some (Tz.fixedOffset o2)⟩
  | _ => Except.error "astimezone: unmodelled source timezone"

/-- Leap-year predicate of the proleptic Gregorian calendar (as in Python's
`calendar.isleap`). -/
def isLeapYear (y : Int) : Prop :=
  (y % 4 = 0 ∧ y % 100 ≠ 0) ∨ y % 400 = 0

instance (y : Int) : Decidable (isLeapYear y) := by
  unfold isLeapYear; infer_instance

/-- Days in a calendar year. -/
def daysInYear (y : Int) : Int :=
  if isLeapYear y then 366 else 365

/-- Day number (days since 1970-01-01) of a civil date, by Howard Hinnant's
`days_from_civil` algorithm. `Int` division `/` in Lean is floor division for
positive divisors, so the sign-shift of the C original is unnecessary. -/
def daysFromCivil (y m d : Int) : Int :=
  let yr := if m ≤ 2 then y - 1 else y
  let era := yr / 400
  let yoe := yr - era * 400
  let mp := (m + 9) % 12
  let doy := (153 * mp + 2) / 5 + d - 1
  let doe := yoe * 365 + yoe / 4 - yoe / 100 + doy
  era * 146097 + doe - 719468

/-- Civil date (year, month, day) of a day number; inverse of
`daysFromCivil` (Hinnant's `civil_from_days`). -/
def civilFromDays (z : Int) : Int × Int × Int :=
  let z := z + 719468
  let era := z / 146097
  let doe := z - era * 146097
  let yoe := (doe - doe / 1460 + doe / 36524 - doe / 146096) / 365
  let y := yoe + era * 400
  let doy := doe - (365 * yoe + yoe / 4 - yoe / 100)
  let mp := (5 * doy + 2) / 153
  let d := doy - (153 * mp + 2) / 5 + 1
  let m := if mp < 10 then mp + 3 else mp - 9
  (if m ≤ 2 then y + 1 else y, m, d)

/-- Weekday of a day number with Monday = 0 (Python's `date.weekday()`;
1970-01-01 was a Thursday). -/
def weekdayOfDays (d : Int) : Int :=
  (d + 3) % 7

/-- Truncate an aware or naive datetime to the start of its wall-clock day
(`datetime_truncate.truncate(..., "day")` keeps the tzinfo). -/
def truncDay (t : Timestamp) : Timestamp :=
  ⟨t.naive - t.naive % 1440, t.tz⟩

/-- Truncate a datetime to the start of its wall-clock month
(`datetime_truncate.truncate(..., "month")` keeps the tzinfo). -/
def truncMonth (t : Timestamp) : Timestamp :=
  let days := t.naive / 1440
  let c := civilFromDays days
  ⟨daysFromCivil c.1 c.2.1 1 * 1440, t.tz⟩

/-- `opennem.schema.network.NetworkSchema` (pydantic model): static metadata of
an electricity network. -/
structure NetworkSchema where
  code : String
  country : String
  label : String
  timezone : String
  timezone_database : String := "UTC"
  offset : Option Int := none
  interval_size : Int
  interval_shift : Int := 0
deriving DecidableEq

/-- `NetworkSchema.get_timezone` (the `postgres_format=False` path, the only
one the aggregation code uses). The source assigns the local variable `tz`
only inside `if self.offset:`; when the offset is `None` or `0` the subsequent
read `if not tz ...` raises `UnboundLocalError`, so the named-timezone and
system-default branches below are dead code, kept for faithfulness. -/
def NetworkSchema.get_timezone (n : NetworkSchema) : Except String Tz :=
  match (if n.offset.getD 0 ≠ 0 then some (Tz.fixedOffset (n.offset.getD 0)) else none) with
  | none => Except.error "UnboundLocalError: local variable tz referenced before assignment"
  | some tz =>
    let tz := if ¬tzTruthy tz ∧ n.timezone ≠ "" then Tz.named n.timezone else tz
    let tz := if ¬tzTruthy tz then Tz.system else tz
    Except.ok tz

/-- `NetworkSchema.get_fixed_offset`: `pytz.FixedOffset(self.offset)` when the
offset is truthy, otherwise `raise Exception("No offset set")`. -/
def NetworkSchema.get_fixed_offset (n : NetworkSchema) : Except String Tz :=
  if n.offset.getD 0 ≠ 0 then Except.ok (Tz.fixedOffset (n.offset.getD 0))
  else Except.error "No offset set"

/-- The `NetworkNEM` constant of `opennem.schema.network`. -/
def NetworkNEM : NetworkSchema :=
  { code := "NEM", label := "NEM", country := "au", timezone := "Australia/Brisbane",
    timezone_database := "AEST", offset := some 600, interval_size := 5, interval_shift := 5 }

/-- The `NetworkWEM` constant of `opennem.schema.network`. -/
def NetworkWEM : NetworkSchema :=
  { code := "WEM", label := "WEM", country := "au", timezone := "Australia/Perth",
    timezone_database := "AWST", offset := some 480, interval_size := 30 }

/-- `ScadaDateRange` as used by `date_range_from_week`: a pair of naive
datetimes (minutes) plus the optional network. -/
structure ScadaDateRange where
  start : Int
  «end» : Int
  network : Option NetworkSchema := none
deriving DecidableEq

/-- Embeds CPython `_strptime._calc_julian_from_U_or_W` specialised to the
`%W` directive (`week_starts_Mon = true`), with `day_of_week` already converted
to Monday-based numbering. Returns the ordinal day of the year (Jan 1 = 1);
may be `≤ 0` for week 0. -/
def calc_julian_from_W (year week_of_year day_of_week : Int) : Int :=
  let first_weekday := weekdayOfDays (daysFromCivil year 1 1)
  let week_0_length := (7 - first_weekday) % 7
  if week_of_year = 0 then
    1 + day_of_week - first_weekday
  else
    1 + (week_0_length + 7 * (week_of_year - 1)) + day_of_week

/-- Embeds `datetime.strptime(f"{year}-W{week_of_year}-{w_day}", "%Y-W%W-%w")`
as a day number. Per CPython `_strptime`: `%w` weekday (Sunday = 0) is
converted to Monday-based; a non-positive julian (possible for week 0) is
shifted into the preceding year. -/
def strptime_YWw (year week_of_year w_day : Int) : Int :=
  let weekday := if w_day = 0 then 6 else w_day - 1
  let julian := calc_julian_from_W year week_of_year weekday
  if julian ≤ 0 then
    daysFromCivil (year - 1) 1 1 + ((julian + daysInYear (year - 1)) - 1)
  else
    daysFromCivil year 1 1 + (julian - 1)

/-- `opennem.api.export.map.date_range_from_week`: parse `"{year}-W{week-1}-1"`
with `"%Y-W%W-%w"` and span 7 days from the anchor. Result timestamps are in
minutes. -/
def date_range_from_week (year week : Int) (network : Option NetworkSchema := none) :
    ScadaDateRange :=
  let start_date_dt := strptime_YWw year (week - 1) 1 * 1440
  let end_date := start_date_dt + 7 * 1440
  { start := start_date_dt, «end» := end_date, network := network }

/-- ISO-8601 week numbering anchor (Monday of ISO week `week`, determined by
the week containing Jan 4), as a day number. Stated from the spec's words for
comparison with the `%W` convention; not part of the source. -/
def isoWeekStartDays (year week : Int) : Int :=
  let jan4 := daysFromCivil year 1 4
  (jan4 - weekdayOfDays jan4) + 7 * (week - 1)

/-- `opennem.core.validators.data.SeriesEdgeType`. -/
inductive SeriesEdgeType where
  | posts
  | rails
deriving DecidableEq

/-- `opennem.core.validators.data.date_diff`: `int((end - start) / interval)`.
Python's `int()` truncates toward zero, which `Int.tdiv` matches. All
arguments are in minutes. -/
def date_diff (interval start_date end_date : Int) : Int :=
  Int.tdiv (end_date - start_date) interval

/-- `opennem.core.validators.data.validate_data_outputs`: checks the series
length against the inclusive/exclusive interval count; raises on mismatch. -/
def validate_data_outputs (series : List (Option Int)) (interval_size : Int)
    (start_date end_date : Int) (edge_type : SeriesEdgeType) : Except String Bool :=
  let number_of_intervals := date_diff interval_size start_date end_date
  match edge_type with
  | SeriesEdgeType.posts =>
      if (series.length : Int) ≠ number_of_intervals then
        Except.error "validate_data_outputs: wrong interval count for type posts"
      else Except.ok true
  | SeriesEdgeType.rails =>
      if (series.length : Int) ≠ number_of_intervals + 1 then
        Except.error "validate_data_outputs: wrong interval count for type rails"
      else Except.ok true

/-- Modelled from the spec: the TimeWindow Resolver's "7-day period,
non-forecast" rule — `window = [nominal_end − 7 days, nominal_end]`. The
implementing code (`TimeSeries.get_range`) is not under src/; only its tests
are. Result is (start, end) in minutes. -/
def resolve_window_7d (nominal_end : Int) : Int × Int :=
  (nominal_end - 7 * 1440, nominal_end)

/-- Modelled from the spec and the src/ call sites: `opennem.schema.units.UnitDefinition`
is not under src/; the fields are exactly those read by `stats_factory`
(`name`, `name_alias`, `unit_type`, `unit`, `cast_nulls`). -/
structure UnitDefinition where
  name : String
  name_alias : Option String
  unit_type : String
  unit : String
  cast_nulls : Option Bool
deriving DecidableEq

/-- Modelled from the spec (Interval/Period Catalog): `opennem.schema.time.TimeInterval`
and `opennem.api.time.human_to_interval` are not under src/. `stats_factory`
only compares interval values for equality and reads `interval_human`, so an
interval is represented by its canonical token. -/
structure TimeInterval where
  interval_human : String
deriving DecidableEq

/-- Modelled from the spec: `human_to_interval` resolves a token to its
canonical interval spec; `stats_factory` uses it only to compare against the
tokens "1d" and "1M". -/
def human_to_interval (token : String) : TimeInterval :=
  ⟨token⟩

/-- `opennem.api.stats.schema.DataQueryResult` (schema module not under src/):
a raw row of (naive timestamp, numeric-or-null value, group key), per the
spec's RawPoint and the fields `stats_factory` reads. -/
structure DataQueryResult where
  interval : Int
  result : Option Int
  group_by : Option String
deriving DecidableEq

/-- `OpennemDataHistory` fields as constructed by `stats_factory`. -/
structure OpennemDataHistory where
  start : Timestamp
  last : Timestamp
  interval : String
  data : List (Option Int)
deriving DecidableEq

/-- `OpennemData` fields as constructed/assigned by `stats_factory`; optional
fields default to `None` in the pydantic model. -/
structure OpennemData where
  data_type : String
  units : String
  history : OpennemDataHistory
  id : Option String
  type : Option String
  code : Option String
  network : Option String
  region : Option String
  fuel_tech : Option String
deriving DecidableEq

/-- `OpennemDataSet` fields as constructed/assigned by `stats_factory`. -/
structure OpennemDataSet where
  type : String
  data : List OpennemData
  created_at : Timestamp
  version : String
  code : Option String
  network : Option String
  region : Option String
deriving DecidableEq

/-- Outcome of one iteration of the `for group_code in group_codes` loop:
`continue` (skip), `return None` (abort), or append a series. -/
inductive GroupStep where
  | skip
  | abortNone
  | emit (d : OpennemData)
deriving DecidableEq

/-- Python truthiness of a numeric-or-null value: `None` and `0` are falsy.
Used by the `if i` filters in `stats_factory`. -/
def truthyVal : Option Int → Bool
  | none => false
  | some v => v != 0

/-- Dict update `data_grouped[k] = v`: overwrite in place if the key exists,
else append (Python dicts preserve insertion order). -/
def upsert (acc : List (Int × Option Int)) (k : Int) (v : Option Int) :
    List (Int × Option Int) :=
  if acc.any (fun p => p.1 == k) then
    acc.map (fun p => if p.1 == k then (k, v) else p)
  else acc ++ [(k, v)]

/-- The `data_grouped` dict built for one group code: for each stat whose
`group_by` matches, assign `data_grouped[stat.interval] = stat.result`
(later rows silently overwrite earlier ones). -/
def buildGroupMap (stats : List DataQueryResult) (group_code : String) :
    List (Int × Option Int) :=
  stats.foldl
    (fun acc s => if s.group_by == some group_code then upsert acc s.interval s.result else acc)
    []

/-- Insertion into a key-sorted association list. -/
def insertSorted (p : Int × Option Int) :
    List (Int × Option Int) → List (Int × Option Int)
  | [] => [p]
  | q :: rest => if p.1 ≤ q.1 then p :: q :: rest else q :: insertSorted p rest

/-- `OrderedDict(sorted(data_grouped.items()))`: sort entries by timestamp
ascending (keys are unique, so stability is irrelevant). -/
def sortByKey (l : List (Int × Option Int)) : List (Int × Option Int) :=
  l.foldr insertSorted []

/-- Modelled from the spec: `opennem.utils.numbers.cast_trailing_nulls` is not
under src/. Spec 4.3 step 5: "any trailing run of null values at the very end
of the sorted series is replaced by the last known non-null value
(forward-filled); interior nulls are left untouched". -/
def cast_trailing_nulls (l : List (Option Int)) : List (Option Int) :=
  let r := l.reverse
  let nulls := r.takeWhile (fun v => v == none)
  let rest := r.dropWhile (fun v => v == none)
  match rest with
  | [] => l
  | v :: _ => (nulls.map (fun _ => v) ++ rest).reverse

/-- Modelled from the spec: `opennem.utils.numbers.trim_nulls` is not under
src/. Spec 4.3 step 6: "Trim nulls from both ends of the (now cast) series so
the reported window exactly bounds the first and last non-null sample". -/
def trim_nulls (l : List (Int × Option Int)) : List (Int × Option Int) :=
  ((l.dropWhile (fun p => p.2 == none)).reverse.dropWhile (fun p => p.2 == none)).reverse

/-- Python `str.lower()` for ASCII (reduces in the kernel, unlike the
iterator-based core `String.toLower`). -/
def char_to_lower (c : Char) : Char :=
  if 65 ≤ c.toNat ∧ c.toNat ≤ 90 then Char.ofNat (c.toNat + 32) else c

/-- ASCII lower-casing of a string, character-wise. -/
def str_to_lower (s : String) : String :=
  ⟨s.data.map char_to_lower⟩

/-- Python `str.startswith(pre)` (reduces in the kernel, unlike the core
`String.startsWith`). -/
def str_starts_with (s pre : String) : Bool :=
  pre.data.isPrefixOf s.data

/-- The trailing-null-cast guard of `stats_factory`:
`(not units.name.startswith("temperature") or (units.cast_nulls is True)) and (cast_nulls is True)`. -/
def castGuard (units : UnitDefinition) (cast_nulls : Option Bool) : Bool :=
  (!(str_starts_with units.name "temperature") || units.cast_nulls == some true)
    && cast_nulls == some true

/-- Reduction of `Except.bind` on a success value (definitional). -/
@[simp] theorem except_bind_ok {ε α β : Type} (a : α) (f : α → Except ε β) :
    Except.bind (Except.ok a) f = f a := rfl

/-- Reduction of `Except.bind` on an error value (definitional). -/
@[simp] theorem except_bind_err {ε α β : Type} (e : ε) (f : α → Except ε β) :
    Except.bind (Except.error e) f = Except.error e := rfl

/-- The repeated source expression
`region.lower() if region and region.lower() != network.code.lower() else None`:
the lower-cased region when it is truthy and distinct from the network code.
Accessing `network.code` with `network is None` raises `AttributeError`. -/
def regionComp (region : Option String) (network : Option NetworkSchema) :
    Except String (Option String) :=
  match region with
  | none => Except.ok none
  | some r =>
      if r = "" then Except.ok none
      else
        match network with
        | some n =>
            Except.ok (if str_to_lower r ≠ str_to_lower n.code then some (str_to_lower r) else none)
        | none => Except.error "AttributeError: NoneType object has no attribute code"

/-- `".".join(i for i in comps if i)` over optional components. -/
def joinComps (comps : List (Option String)) : String :=
  String.intercalate "." ((comps.filterMap id).filter (fun s => s != ""))

/-- `".".join(f for f in fields if f)` over string components. -/
def joinStrs (l : List String) : String :=
  String.intercalate "." (l.filter (fun s => s != ""))

/-- The localization steps `stats_factory` applies to the derived start/end
timestamps (both go through the identical guards):
  if localize and timezone and not aware: make_aware;
  if localize and timezone and network and network.offset: astimezone(FixedOffset);
  if network and timezone and not aware: replace(tzinfo=network.get_fixed_offset()). -/
def localizeTimestamp (localize : Bool) (timezone : Option Tz)
    (network : Option NetworkSchema) (t0 : Timestamp) : Except String Timestamp :=
  let t1 :=
    match timezone with
    | some tz => if localize = true ∧ is_aware t0 = false then make_aware t0 tz else t0
    | none => t0
  let t2R :=
    match network, timezone with
    | some n, some _ =>
        if localize = true ∧ n.offset.getD 0 ≠ 0 then t1.astimezoneFixed (n.offset.getD 0)
        else Except.ok t1
    | _, _ => Except.ok t1
  Except.bind t2R (fun t2 =>
    match network, timezone with
    | some n, some _ =>
        if is_aware t2 = false then
          Except.bind n.get_fixed_offset (fun fo => Except.ok { t2 with tz := some fo })
        else Except.ok t2
    | _, _ => Except.ok t2)

/-- The fuel-tech-grouped id of `stats_factory` (the `if fueltech_group:`
branch): `".".join` of country / network-code / distinct-region / "fuel_tech" /
group-code / unit-type, skipping falsy components. Note the source includes
`network.country` (the "@NOTE disable" comment notwithstanding, the line is
active). -/
def fueltech_id (units : UnitDefinition) (network : Option NetworkSchema)
    (region : Option String) (group_code : String) : Except String String :=
  Except.bind (regionComp region network) (fun rc =>
    Except.ok (joinComps
      [network.map (fun n => n.country),
       network.map (fun n => str_to_lower n.code),
       rc,
       some "fuel_tech",
       some group_code,
       some units.unit_type]))

/-- The generic group-field id of `stats_factory` (the `if group_field:`
branch): country / network-code / distinct-region / unit alias-or-type /
(group code and the group-field name when `include_group_code`). -/
def group_field_id (units : UnitDefinition) (network : Option NetworkSchema)
    (region : Option String) (include_group_code : Bool) (group_code : String)
    (group_field : String) : Except String String :=
  Except.bind (regionComp region network) (fun rc =>
    Except.ok (joinStrs
      ((match network with
        | some n => [str_to_lower n.country, str_to_lower n.code]
        | none => [])
       ++ (match rc with | some r => [r] | none => [])
       ++ (if units.name_alias.getD "" ≠ "" then [units.name_alias.getD ""]
           else if units.unit_type ≠ "" then [units.unit_type] else [])
       ++ (if group_code ≠ "" ∧ include_group_code then [group_code, group_field] else []))))

/-- The default fallback id of `stats_factory` (the `if not data.id:` branch):
network-code / distinct-region / lower-cased group code / unit alias-or-name. -/
def fallback_id (units : UnitDefinition) (network : Option NetworkSchema)
    (region : Option String) (group_code : String) : Except String String :=
  Except.bind (regionComp region network) (fun rc =>
    Except.ok (joinStrs
      ((match network with
        | some n => [str_to_lower n.code]
        | none => [])
       ++ (match rc with | some r => [r] | none => [])
       ++ (if group_code ≠ "" then [str_to_lower group_code] else [])
       ++ (if units.name_alias.getD "" ≠ "" then [units.name_alias.getD ""]
           else if units.name ≠ "" then [units.name] else []))))

/-- The initial `OpennemData` of a group plus the `include_code` and `network`
attribute assignments of `stats_factory`. -/
def initialData (units : UnitDefinition) (network : Option NetworkSchema)
    (include_code : Bool) (group_code : String) (history : OpennemDataHistory) :
    OpennemData :=
  let data : OpennemData :=
    { data_type := units.unit_type, units := units.unit, history := history,
      id := none, type := none, code := none, network := none, region := none,
      fuel_tech := none }
  let data := if include_code then { data with code := some group_code } else data
  match network with
  | some n => { data with network := some (str_to_lower n.code) }
  | none => data

/-- The `if fueltech_group:` block of `stats_factory`. -/
def applyFueltech (units : UnitDefinition) (network : Option NetworkSchema)
    (region : Option String) (fueltech_group : Bool) (group_code : String)
    (data : OpennemData) : Except String OpennemData :=
  if fueltech_group then
    Except.bind (fueltech_id units network region group_code) (fun fid =>
      Except.ok { data with fuel_tech := some group_code,
                            id := some fid,
                            type := some units.unit_type })
  else Except.ok data

/-- The `if group_field:` block of `stats_factory`. -/
def applyGroupField (units : UnitDefinition) (network : Option NetworkSchema)
    (region : Option String) (include_group_code : Bool) (group_code : String)
    (group_field : Option String) (data : OpennemData) : Except String OpennemData :=
  match group_field with
  | some gf =>
      Except.bind (group_field_id units network region include_group_code group_code gf)
        (fun gid => Except.ok { data with id := some gid, type := some units.unit_type })
  | none => Except.ok data

/-- The `if data_id: data.id = data_id` assignment of `stats_factory`. -/
def applyDataId (data_id : Option String) (data : OpennemData) : OpennemData :=
  match data_id with
  | some di => if di ≠ "" then { data with id := some di } else data
  | none => data

/-- The `if not data.id:` fallback block of `stats_factory`. -/
def applyFallback (units : UnitDefinition) (network : Option NetworkSchema)
    (region : Option String) (group_code : String) (data : OpennemData) :
    Except String OpennemData :=
  if data.id.getD "" = "" then
    Except.bind (fallback_id units network region group_code) (fun fid =>
      Except.ok { data with id := some fid, type := some units.unit_type })
  else Except.ok data

/-- The `if region: data.region = region` assignment of `stats_factory`. -/
def applyRegionTag (region : Option String) (data : OpennemData) : OpennemData :=
  match region with
  | some r => if r ≠ "" then { data with region := some r } else data
  | none => data

/-- The series-metadata/id assignment block of `stats_factory`: starting from
the freshly constructed `OpennemData`, apply in source order the
`include_code`, `network`, `fueltech_group`, `group_field`, `data_id`,
`if not data.id` and `region` assignments. -/
def buildData (units : UnitDefinition) (network : Option NetworkSchema)
    (region : Option String) (include_group_code : Bool) (fueltech_group : Bool)
    (group_field : Option String) (data_id : Option String) (include_code : Bool)
    (group_code : String) (history : OpennemDataHistory) : Except String OpennemData :=
  Except.bind (applyFueltech units network region fueltech_group group_code
      (initialData units network include_code group_code history)) (fun data =>
    Except.bind (applyGroupField units network region include_group_code group_code
        group_field data) (fun data =>
      Except.bind (applyFallback units network region group_code (applyDataId data_id data))
        (fun data => Except.ok (applyRegionTag region data))))

/-- The date/localization/emit tail of the group-loop body: `if not dates:
return None`, else derive min/max, localize, truncate, and emit the series.
`dates` is passed alongside `data_trimmed` (in the source it is
`list(data_trimmed.keys())`). -/
def processDates (stats : List DataQueryResult) (units : UnitDefinition)
    (interval : TimeInterval) (network : Option NetworkSchema) (timezone : Option Tz)
    (region : Option String) (include_group_code : Bool) (fueltech_group : Bool)
    (group_field : Option String) (data_id : Option String) (localize : Bool)
    (include_code : Bool) (group_code : String)
    (data_trimmed : List (Int × Option Int)) :
    List Int → Except String GroupStep
  | [] => Except.ok GroupStep.abortNone
  | d :: ds =>
      let start0 : Timestamp := ⟨List.foldl min d ds, none⟩
      let last0 : Timestamp := ⟨List.foldl max d ds, none⟩
      Except.bind (localizeTimestamp localize timezone network start0) (fun start1 =>
        Except.bind (localizeTimestamp localize timezone network last0) (fun last1 =>
          let start2 := if interval == human_to_interval "1d" then truncDay start1 else start1
          let last2 := if interval == human_to_interval "1d" then truncDay last1 else last1
          let start3 := if interval == human_to_interval "1M" then truncMonth start2 else start2
          let last3 := if interval == human_to_interval "1M" then truncMonth last2 else last2
          let history : OpennemDataHistory :=
            { start := start3, last := last3, interval := interval.interval_human,
              data := data_trimmed.map (fun p => p.2) }
          Except.bind (buildData units network region include_group_code fueltech_group
              group_field data_id include_code group_code history)
            (fun data => Except.ok (GroupStep.emit data))))

/-- The body of the `for group_code in group_codes` loop of `stats_factory`. -/
def processGroup (stats : List DataQueryResult) (units : UnitDefinition)
    (interval : TimeInterval) (network : Option NetworkSchema) (timezone : Option Tz)
    (region : Option String) (include_group_code : Bool) (fueltech_group : Bool)
    (group_field : Option String) (data_id : Option String) (localize : Bool)
    (include_code : Bool) (cast_nulls : Option Bool) (group_code : String) :
    Except String GroupStep :=
  let data_sorted := sortByKey (buildGroupMap stats group_code)
  let data_value := data_sorted.map (fun p => p.2)
  if (data_value.filter truthyVal).length = 0 then Except.ok GroupStep.skip
  else
    let data_value :=
      if castGuard units cast_nulls then cast_trailing_nulls data_value else data_value
    let data_trimmed := trim_nulls (List.zip (data_sorted.map (fun p => p.1)) data_value)
    processDates stats units interval network timezone region include_group_code
      fueltech_group group_field data_id localize include_code group_code data_trimmed
      (data_trimmed.map (fun p => p.1))

/-- Run the group loop in order: `continue` on skip, `return None` aborts the
whole call, emitted series accumulate in order. -/
def runGroups (f : String → Except String GroupStep) :
    List String → Except String (Option (List OpennemData))
  | [] => Except.ok (some [])
  | gc :: rest =>
      Except.bind (f gc) (fun step =>
        match step with
        | GroupStep.skip => runGroups f rest
        | GroupStep.abortNone => Except.ok none
        | GroupStep.emit d =>
            Except.bind (runGroups f rest) (fun o =>
              match o with
              | none => Except.ok none
              | some ds => Except.ok (some (d :: ds))))

/-- First-occurrence deduplication standing in for `list(set(...))` (CPython's
set iteration order is unspecified; the spec says callers must not rely on
group discovery order). -/
def dedupFirst : List String → List String
  | [] => []
  | x :: xs => x :: (dedupFirst xs).filter (fun y => y != x)

/-- Modelled from the spec: `opennem.utils.version.get_version` (not under
src/) stamps the result set with a version tag. -/
def get_version : String :=
  "3.0.0"

/-- The `created_at` stamp of the result set:
`datetime.now().astimezone(network.get_timezone())` when a network is present
(`now` is the naive system clock in minutes, `sys_offset` the system UTC
offset), the naive system time otherwise. -/
def createdAtStamp (network : Option NetworkSchema) (now sys_offset : Int) :
    Except String Timestamp :=
  match network with
  | some n =>
      Except.bind n.get_timezone (fun tz =>
        match tz with
        | Tz.fixedOffset o => Except.ok ⟨now - sys_offset + o, some (Tz.fixedOffset o)⟩
        | _ => Except.error "astimezone: unmodelled system conversion")
  | none => Except.ok ⟨now, none⟩

/-- The set-level `code` resolution: `if not code: code = network.code;
code = region` (region wins when both are truthy). -/
def resolveSetCode (code : Option String) (network : Option NetworkSchema)
    (region : Option String) : Option String :=
  if code.getD "" = "" then
    let c1 :=
      match network with
      | some n => some n.code
      | none => code
    match region with
    | some r => if r ≠ "" then some r else c1
    | none => c1
  else code

/-- `if include_code: stat_set.code = code`. -/
def applySetCode (include_code : Bool) (codeF : Option String) (s : OpennemDataSet) :
    OpennemDataSet :=
  if include_code then { s with code := codeF } else s

/-- `if network: stat_set.network = network.code`. -/
def applySetNetwork (network : Option NetworkSchema) (s : OpennemDataSet) :
    OpennemDataSet :=
  match network with
  | some n => { s with network := some n.code }
  | none => s

/-- `if region: stat_set.region = region`. -/
def applySetRegion (region : Option String) (s : OpennemDataSet) : OpennemDataSet :=
  match region with
  | some r => if r ≠ "" then { s with region := some r } else s
  | none => s

/-- The result-set assembly tail of `stats_factory` (everything after the
group loop): stamp `created_at`, resolve the set-level `code`, and attach
network/region labels. A `None` from the loop propagates as the null result. -/
def assembleResult (units : UnitDefinition) (network : Option NetworkSchema)
    (code : Option String) (region : Option String) (include_code : Bool)
    (now : Int) (sys_offset : Int) (res : Option (List OpennemData)) :
    Except String (Option OpennemDataSet) :=
  match res with
  | none => Except.ok none
  | some stats_grouped =>
      Except.bind (createdAtStamp network now sys_offset) (fun dt_now =>
        let stat_set : OpennemDataSet :=
          { type := units.unit_type, data := stats_grouped, created_at := dt_now,
            version := get_version, code := none, network := none, region := none }
        Except.ok (some (applySetRegion region (applySetNetwork network
          (applySetCode include_code (resolveSetCode code network region) stat_set)))))

/-- The `if network: timezone = network.get_timezone()` step of
`stats_factory`: the network timezone (when a network is present) overrides
the caller-supplied timezone. -/
def networkTimezone (network : Option NetworkSchema) (timezone : Option Tz) :
    Except String (Option Tz) :=
  match network with
  | some n => Except.bind n.get_timezone (fun tz => Except.ok (some tz))
  | none => Except.ok timezone

/-- `opennem.api.stats.controllers.stats_factory`. Wall-clock reads are passed
explicitly: `now` is the naive system time in minutes and `sys_offset` the
system UTC offset in minutes (used by `datetime.now().astimezone(...)`). -/
def stats_factory (stats : List DataQueryResult) (units : UnitDefinition)
    (interval : TimeInterval) (network : Option NetworkSchema) (timezone : Option Tz)
    (code : Option String) (region : Option String) (include_group_code : Bool)
    (fueltech_group : Bool) (group_field : Option String) (data_id : Option String)
    (localize : Bool) (include_code : Bool) (cast_nulls : Option Bool)
    (now : Int) (sys_offset : Int) : Except String (Option OpennemDataSet) :=
  Except.bind (networkTimezone network timezone) (fun timezone =>
    let group_codes := dedupFirst (stats.filterMap (fun s =>
      match s.group_by with
      | some g => if g ≠ "" then some g else none
      | none => none))
    Except.bind (runGroups (processGroup stats units interval network timezone region
        include_group_code fueltech_group group_field data_id localize include_code
        cast_nulls) group_codes)
      (assembleResult units network code region include_code now sys_offset))

/-! ## Helper lemmas -/

theorem get_timezone_ok (n : NetworkSchema) (h : n.offset.getD 0 ≠ 0) :
    n.get_timezone = Except.ok (Tz.fixedOffset (n.offset.getD 0)) := by
  simp [NetworkSchema.get_timezone, tzTruthy, h]

theorem get_fixed_offset_ok (n : NetworkSchema) (h : n.offset.getD 0 ≠ 0) :
    n.get_fixed_offset = Except.ok (Tz.fixedOffset (n.offset.getD 0)) := by
  simp [NetworkSchema.get_fixed_offset, h]

theorem jan1_aux (y a a' r s : Int) (ha : a * 400 + r = y - 1) (hb : a' * 400 + s = y)
    (hr : 0 ≤ r) (hr' : r < 400) (hs : 0 ≤ s) (hs' : s < 400) :
    a' * 146097 + (s * 365 + s / 4 - s / 100 + 306) - 719468 =
      a * 146097 + (r * 365 + r / 4 - r / 100 + 306) - 719468 +
        if 4 ∣ y ∧ ¬100 ∣ y ∨ 400 ∣ y then 366 else 365 := by
  split <;> omega

theorem jan1_shift (y : Int) :
    daysFromCivil (y + 1) 1 1 = daysFromCivil y 1 1 + daysInYear y := by
  simp only [daysFromCivil, daysInYear, isLeapYear]
  norm_num
  have e1 : y - y / 400 * 400 = y % 400 := by omega
  have e2 : y - 1 - (y - 1) / 400 * 400 = (y - 1) % 400 := by omega
  rw [e1, e2]
  exact jan1_aux y ((y - 1) / 400) (y / 400) ((y - 1) % 400) (y % 400)
    (by omega) (by omega) (Int.emod_nonneg _ (by norm_num)) (Int.emod_lt_of_pos _ (by norm_num))
    (Int.emod_nonneg _ (by norm_num)) (Int.emod_lt_of_pos _ (by norm_num))

theorem strptime_week0 (year : Int) :
    strptime_YWw year 0 1 =
      daysFromCivil year 1 1 - weekdayOfDays (daysFromCivil year 1 1) := by
  unfold strptime_YWw calc_julian_from_W weekdayOfDays
  have hshift := jan1_shift (year - 1)
  have hy1 : year - 1 + 1 = year := by ring
  rw [hy1] at hshift
  have hdy : daysInYear (year - 1) = 365 ∨ daysInYear (year - 1) = 366 := by
    unfold daysInYear; split <;> simp
  norm_num
  rcases hdy with h | h <;> rw [h] <;> omega

theorem strptime_weekN (year w : Int) (hw : 1 ≤ w) :
    strptime_YWw year w 1 =
      daysFromCivil year 1 1
        + (7 - weekdayOfDays (daysFromCivil year 1 1)) % 7 + 7 * (w - 1) := by
  unfold strptime_YWw calc_julian_from_W weekdayOfDays
  norm_num
  omega

/-- C6: for every year and week number (in the domain strptime accepts), the
year+week window anchor is the `%W`-style Monday-start anchor — week 1 is
anchored at the Monday on or before Jan 1 (the "week 0 before the first
Monday" convention), week `w ≥ 2` at the first Monday of the year plus
`w - 2` weeks, and the anchor is always a Monday; the window end is exactly
the anchor plus 7 days. This is not ISO week numbering: for 2021 week 2 the
`%W` anchor (2021-01-04) differs from the ISO week-2 Monday (2021-01-11). -/
theorem c6_week_window (year week : Int) (net : Option NetworkSchema)
    (hy : 1 ≤ year) (hw : 1 ≤ week) :
    ((date_range_from_week year week net).«end» =
        (date_range_from_week year week net).start + 7 * 1440)
    ∧ weekdayOfDays ((date_range_from_week year week net).start / 1440) = 0
    ∧ (week = 1 → (date_range_from_week year week net).start =
        (daysFromCivil year 1 1 - weekdayOfDays (daysFromCivil year 1 1)) * 1440)
    ∧ (2 ≤ week → (date_range_from_week year week net).start =
        (daysFromCivil year 1 1 + (7 - weekdayOfDays (daysFromCivil year 1 1)) % 7
          + 7 * (week - 2)) * 1440)
    ∧ (date_range_from_week 2021 2 none).start ≠ isoWeekStartDays 2021 2 * 1440 := by
  have hstart : (date_range_from_week year week net).start =
      strptime_YWw year (week - 1) 1 * 1440 := rfl
  have hdiv : (date_range_from_week year week net).start / 1440 =
      strptime_YWw year (week - 1) 1 := by
    rw [hstart]; omega
  refine ⟨rfl, ?_, ?_, ?_, ?_⟩
  · rw [hdiv]
    by_cases h1 : week = 1
    · rw [h1]
      norm_num
      rw [strptime_week0 year]
      unfold weekdayOfDays
      omega
    · have h2 : 1 ≤ week - 1 := by omega
      rw [strptime_weekN year (week - 1) h2]
      unfold weekdayOfDays
      omega
  · intro h1
    rw [hstart, h1]
    norm_num
    rw [strptime_week0 year]
  · intro h2
    rw [hstart, strptime_weekN year (week - 1) (by omega)]
    ring_nf
  · decide

/-- Witness for C6 at year 2021, week 1: the window spans exactly 7 days and
the anchor (2020-12-28, day 18624) is a Monday. -/
theorem c6_week_window_witness :
    (date_range_from_week 2021 1 none).«end» = (date_range_from_week 2021 1 none).start + 7 * 1440
    ∧ (date_range_from_week 2021 1 none).start = 18624 * 1440 := by
  have h := c6_week_window 2021 1 none (by norm_num) (by norm_num)
  refine ⟨h.1, ?_⟩
  rw [h.2.2.1 rfl]
  decide

/-- C8: the spec-modelled 7-day non-forecast window spans exactly 7 days; a
series over it at 5-minute cadence passes `validate_data_outputs` under the
"rails" edge rule exactly when it has 2017 points, a 1-hour window exactly
when it has 13 points, and in general a rails series validates exactly when
its length is (end − start)/interval + 1. -/
theorem c8_rails_validation :
    (∀ e : Int, (resolve_window_7d e).2 - (resolve_window_7d e).1 = 7 * 1440)
    ∧ (∀ (series : List (Option Int)) (e : Int),
        (validate_data_outputs series 5 (resolve_window_7d e).1 (resolve_window_7d e).2
            SeriesEdgeType.rails = Except.ok true ↔ series.length = 2017))
    ∧ (∀ (series : List (Option Int)) (s : Int),
        (validate_data_outputs series 5 s (s + 60) SeriesEdgeType.rails = Except.ok true
          ↔ series.length = 13))
    ∧ (∀ (series : List (Option Int)) (i s e : Int), 0 < i → s ≤ e →
        (validate_data_outputs series i s e SeriesEdgeType.rails = Except.ok true
          ↔ (series.length : Int) = (e - s) / i + 1)) := by
  have hval : ∀ (series : List (Option Int)) (i s e : Int),
      (validate_data_outputs series i s e SeriesEdgeType.rails = Except.ok true
        ↔ (series.length : Int) = date_diff i s e + 1) := by
    intro series i s e
    have hrfl : validate_data_outputs series i s e SeriesEdgeType.rails =
        (if (series.length : Int) ≠ date_diff i s e + 1 then
          Except.error "validate_data_outputs: wrong interval count for type rails"
        else Except.ok true) := rfl
    rw [hrfl]
    split
    · rename_i h
      constructor
      · intro hc; exact absurd hc (by simp)
      · intro hc; exact absurd hc h
    · rename_i h
      simp only [not_not] at h
      exact ⟨fun _ => h, fun _ => rfl⟩
  refine ⟨fun e => by simp [resolve_window_7d], ?_, ?_, ?_⟩
  · intro series e
    rw [hval]
    unfold date_diff resolve_window_7d
    have he : e - (e - 7 * 1440) = 10080 := by ring
    simp only [he]
    norm_num [Int.tdiv]
    omega
  · intro series s
    rw [hval]
    unfold date_diff
    have he : s + 60 - s = 60 := by ring
    simp only [he]
    norm_num [Int.tdiv]
    omega
  · intro series i s e hi hse
    rw [hval]
    unfold date_diff
    rw [Int.tdiv_eq_ediv (by omega) (by omega)]

/-- Witness for C8: a 2017-point series over a concrete 7-day window at
5-minute cadence validates under the rails rule. -/
theorem c8_rails_validation_witness :
    validate_data_outputs (List.replicate 2017 (some 1)) 5 0 10080
      SeriesEdgeType.rails = Except.ok true := by
  rw [c8_rails_validation.2.2.2 (List.replicate 2017 (some 1)) 5 0 10080
    (by norm_num) (by norm_num)]
  rw [List.length_replicate]
  decide

/-- C10: for every network whose fixed offset is unset (`None`) or `0`,
`get_timezone` raises (`UnboundLocalError`: the local `tz` is read before
assignment) rather than falling back; and for every network whatsoever the
named-timezone and system-default branches are unreachable (the result is
never a named or system timezone). -/
theorem c10_get_timezone_unbound (n : NetworkSchema)
    (h : n.offset = none ∨ n.offset = some 0) :
    n.get_timezone =
      Except.error "UnboundLocalError: local variable tz referenced before assignment"
    ∧ ∀ m : NetworkSchema,
        (∀ s, m.get_timezone ≠ Except.ok (Tz.named s))
        ∧ m.get_timezone ≠ Except.ok Tz.system := by
  constructor
  · have h0 : n.offset.getD 0 = 0 := by rcases h with h | h <;> simp [h]
    simp [NetworkSchema.get_timezone, h0]
  · intro m
    by_cases hm : m.offset.getD 0 ≠ 0
    · rw [get_timezone_ok m hm]
      refine ⟨fun s hs => ?_, fun hs => ?_⟩ <;> simp at hs
    · simp only [not_not] at hm
      constructor
      · intro s hs
        simp [NetworkSchema.get_timezone, hm] at hs
      · intro hs
        simp [NetworkSchema.get_timezone, hm] at hs

/-- A network with no fixed offset, used as the C10 witness input. -/
def exNetworkNoOffset : NetworkSchema :=
  { code := "TEST", label := "Test", country := "au", timezone := "Australia/Sydney",
    timezone_database := "UTC", offset := none, interval_size := 30, interval_shift := 0 }

/-- Witness for C10: the no-offset network makes `get_timezone` raise even
though it has a perfectly good named timezone configured. -/
theorem c10_get_timezone_unbound_witness :
    exNetworkNoOffset.get_timezone =
      Except.error "UnboundLocalError: local variable tz referenced before assignment" :=
  (c10_get_timezone_unbound exNetworkNoOffset (Or.inl rfl)).1

/-- Dict lookup on the association-list model: the value stored at key `k`
(keys are unique, so this is the dict entry). -/
def lookupKey : List (Int × Option Int) → Int → Option (Option Int)
  | [], _ => none
  | p :: rest, k => if p.1 == k then some p.2 else lookupKey rest k

theorem lookup_upsert_eq (acc : List (Int × Option Int)) (k : Int) (v : Option Int) :
    lookupKey (upsert acc k v) k = some v := by
  unfold upsert
  split
  · rename_i h
    induction acc with
    | nil => simp at h
    | cons a tl ih =>
      by_cases ha : (a.1 == k) = true
      · simp [lookupKey, ha]
      · have h' : tl.any (fun p => p.1 == k) = true := by
          rcases List.any_eq_true.mp h with ⟨x, hx, hpx⟩
          cases hx with
          | head => exact absurd hpx (by simpa using ha)
          | tail _ hmem => exact List.any_eq_true.mpr ⟨x, hmem, hpx⟩
        simpa [lookupKey, ha] using ih h'
  · rename_i h
    induction acc with
    | nil => simp [lookupKey]
    | cons a tl ih =>
      have ha : (a.1 == k) = false := by
        by_contra hc
        exact h (List.any_eq_true.mpr ⟨a, List.mem_cons_self a tl, by simpa using hc⟩)
      have h' : ¬tl.any (fun p => p.1 == k) = true := by
        intro hc
        rcases List.any_eq_true.mp hc with ⟨x, hx, hpx⟩
        exact h (List.any_eq_true.mpr ⟨x, List.mem_cons_of_mem a hx, hpx⟩)
      simpa [lookupKey, ha] using ih h'

theorem lookupKey_map_replace_ne (tl : List (Int × Option Int)) (k t : Int)
    (v : Option Int) (hkt : k ≠ t) :
    lookupKey (tl.map (fun p => if p.1 == k then (k, v) else p)) t = lookupKey tl t := by
  induction tl with
  | nil => simp [lookupKey]
  | cons a tl ih =>
    simp only [List.map_cons, lookupKey]
    by_cases ha : (a.1 == k) = true
    · have ha' : a.1 = k := by simpa using ha
      rw [if_pos ha]
      have h1 : ((k : Int) == t) = false := by simp [hkt]
      have h2 : (a.1 == t) = false := by simp [ha', hkt]
      simp only [lookupKey, h1, h2, Bool.false_eq_true, if_false, ih]
    · rw [if_neg ha]
      by_cases hat : (a.1 == t) = true
      · simp only [lookupKey, hat, if_true]
      · simp only [lookupKey, hat, Bool.false_eq_true, if_false, ih]

theorem lookupKey_append_single_ne (tl : List (Int × Option Int)) (k t : Int)
    (v : Option Int) (hkt : k ≠ t) :
    lookupKey (tl ++ [(k, v)]) t = lookupKey tl t := by
  induction tl with
  | nil => simp [lookupKey, hkt]
  | cons a tl ih =>
    by_cases hat : (a.1 == t) = true
    · simp [lookupKey, hat]
    · simp [lookupKey, hat, ih]

theorem lookup_upsert_ne (acc : List (Int × Option Int)) (k t : Int) (v : Option Int)
    (hkt : k ≠ t) :
    lookupKey (upsert acc k v) t = lookupKey acc t := by
  unfold upsert
  split
  · exact lookupKey_map_replace_ne acc k t v hkt
  · exact lookupKey_append_single_ne acc k t v hkt

/-- C9: within a group, the timestamp-to-value mapping holds, for every
timestamp, the result of the last (later-seen, in input order) matching raw
row — duplicates silently overwrite earlier rows and are never summed. -/
theorem c9_duplicate_overwrite (stats : List DataQueryResult) (group_code : String) (t : Int) :
    lookupKey (buildGroupMap stats group_code) t =
      (stats.reverse.find? (fun s => s.group_by == some group_code && s.interval == t)).map
        (fun s => s.result) := by
  induction stats using List.reverseRecOn with
  | nil => simp [buildGroupMap, lookupKey]
  | append_singleton l x ih =>
    unfold buildGroupMap at ih ⊢
    rw [List.foldl_append]
    simp only [List.foldl_cons, List.foldl_nil, List.reverse_append, List.reverse_singleton,
      List.singleton_append]
    by_cases hx : (x.group_by == some group_code) = true
    · rw [if_pos hx]
      by_cases hxt : (x.interval == t) = true
      · have ht : x.interval = t := by simpa using hxt
        rw [List.find?_cons_of_pos _ (by simp [hx, hxt])]
        rw [ht, lookup_upsert_eq]
        simp
      · have ht : x.interval ≠ t := by simpa using hxt
        rw [List.find?_cons_of_neg _ (by simp [hxt])]
        rw [lookup_upsert_ne _ _ _ _ ht]
        exact ih
    · rw [if_neg hx]
      rw [List.find?_cons_of_neg _ (by simp [hx])]
      exact ih

/-- The spec's wording of the trailing-null-cast condition (4.3 step 5): the
unit's name does not denote a temperature quantity, OR the unit explicitly
allows null-casting, AND the caller has not disabled casting. Stated from the
spec for comparison with the source guard `castGuard`. -/
def spec_cast_condition (units : UnitDefinition) (cast_nulls : Option Bool) : Prop :=
  (str_starts_with units.name "temperature" = false ∨ units.cast_nulls = some true)
  ∧ cast_nulls = some true

/-- Length of the trailing run of nulls of a value list. -/
def trailingNullCount (l : List (Option Int)) : Nat :=
  (l.reverse.takeWhile (fun v => v == none)).length

theorem cast_trailing_nulls_length (l : List (Option Int)) :
    (cast_trailing_nulls l).length = l.length := by
  simp only [cast_trailing_nulls]
  split
  · rfl
  · rename_i v rest' heq
    have htw := List.takeWhile_append_dropWhile (p := fun v : Option Int => v == none)
      (l := l.reverse)
    rw [heq] at htw
    have h2 := congrArg List.length htw
    simp only [List.length_append, List.length_cons, List.length_reverse] at h2
    have h3 := congrArg List.length heq
    simp only [List.length_cons] at h3
    simp only [List.length_reverse, List.length_append, List.length_map, List.length_cons]
    omega

theorem cast_trailing_nulls_take (l : List (Option Int)) :
    (cast_trailing_nulls l).take (l.length - trailingNullCount l)
      = l.take (l.length - trailingNullCount l) := by
  simp only [cast_trailing_nulls, trailingNullCount]
  split
  · rfl
  · rename_i v rest' heq
    have htw := List.takeWhile_append_dropWhile (p := fun v : Option Int => v == none)
      (l := l.reverse)
    set tw := List.takeWhile (fun v : Option Int => v == none) l.reverse with htwdef
    rw [heq] at htw
    have hl : l = (v :: rest').reverse ++ tw.reverse := by
      rw [← List.reverse_reverse l, ← htw, List.reverse_append]
    have hn : l.length - tw.length = (v :: rest').length := by
      have h2 := congrArg List.length htw
      simp only [List.length_append, List.length_cons, List.length_reverse] at h2
      simp only [List.length_cons]
      omega
    rw [heq, hn, List.reverse_append]
    rw [List.take_left' (by simp)]
    conv_rhs => rw [hl]
    rw [List.take_left' (by simp)]

/-- A non-temperature unit definition used as a concrete fixture. -/
def exUnits : UnitDefinition :=
  { name := "energy", name_alias := none, unit_type := "energy", unit := "MWh",
    cast_nulls := none }

/-- A temperature unit definition used as a concrete fixture. -/
def exUnitsTemp : UnitDefinition :=
  { name := "temperature_mean", name_alias := none, unit_type := "temperature_mean",
    unit := "degC", cast_nulls := none }

/-- The 5-minute interval token fixture. -/
def exInterval : TimeInterval :=
  ⟨"5m"⟩

/-- The spec's null-handling fixture: one group with values
`[null, null, 5, null, 7, null, null]` at successive timestamps. -/
def exStatsNulls : List DataQueryResult :=
  [⟨0, none, some "g"⟩, ⟨1, none, some "g"⟩, ⟨2, some 5, some "g"⟩,
   ⟨3, none, some "g"⟩, ⟨4, some 7, some "g"⟩, ⟨5, none, some "g"⟩,
   ⟨6, none, some "g"⟩]

/-- C5: trailing-null casting is applied exactly under the guard "(the unit's
name is not a temperature name OR the unit explicitly allows null-casting) AND
the caller has not disabled casting"; the cast never modifies entries up to
and including the last non-null value (interior nulls untouched) and never
changes the length; on the spec fixture it forward-fills exactly the trailing
nulls. Observably in the engine: the fixture group emits
`[5, null, 7, 7, 7]` for a non-temperature unit but `[5, null, 7]` (trailing
nulls trimmed, not cast) for a temperature unit or when the caller disables
casting. -/
theorem c5_cast_guard :
    (∀ (units : UnitDefinition) (cn : Option Bool),
        castGuard units cn = true ↔ spec_cast_condition units cn)
    ∧ (∀ l : List (Option Int),
        (cast_trailing_nulls l).length = l.length
        ∧ (cast_trailing_nulls l).take (l.length - trailingNullCount l)
            = l.take (l.length - trailingNullCount l))
    ∧ cast_trailing_nulls [none, none, some 5, none, some 7, none, none]
        = [none, none, some 5, none, some 7, some 7, some 7]
    ∧ (stats_factory exStatsNulls exUnits exInterval (some NetworkNEM) none none none
        false false none none true true (some true) 0 0).map
        (Option.map (fun ds => ds.data.map (fun d => d.history.data)))
        = Except.ok (some [[some 5, none, some 7, some 7, some 7]])
    ∧ (stats_factory exStatsNulls exUnitsTemp exInterval (some NetworkNEM) none none none
        false false none none true true (some true) 0 0).map
        (Option.map (fun ds => ds.data.map (fun d => d.history.data)))
        = Except.ok (some [[some 5, none, some 7]])
    ∧ (stats_factory exStatsNulls exUnits exInterval (some NetworkNEM) none none none
        false false none none true true (some false) 0 0).map
        (Option.map (fun ds => ds.data.map (fun d => d.history.data)))
        = Except.ok (some [[some 5, none, some 7]]) := by
  refine ⟨?_, ?_, by decide, by rfl, by rfl, by rfl⟩
  · intro units cn
    unfold castGuard spec_cast_condition
    constructor
    · intro h
      rcases Bool.and_eq_true .. |>.mp h with ⟨h1, h2⟩
      refine ⟨?_, by simpa using h2⟩
      rcases Bool.or_eq_true .. |>.mp h1 with h3 | h3
      · exact Or.inl (by simpa using h3)
      · exact Or.inr (by simpa using h3)
    · intro ⟨h1, h2⟩
      refine Bool.and_eq_true .. |>.mpr ⟨?_, by simpa using h2⟩
      rcases h1 with h3 | h3
      · exact Bool.or_eq_true .. |>.mpr (Or.inl (by simpa using h3))
      · exact Bool.or_eq_true .. |>.mpr (Or.inr (by simpa using h3))
  · intro l
    exact ⟨cast_trailing_nulls_length l, cast_trailing_nulls_take l⟩

/-- Counterexample for C1: a two-group input where every value in both groups
is null does NOT make `stats_factory` return null — it returns a present
(`isSome`) `OpennemDataSet` whose series list is empty. -/
theorem c1_counterexample :
    (stats_factory [⟨0, none, some "g1"⟩, ⟨5, none, some "g2"⟩] exUnits exInterval
        (some NetworkNEM) none none none false false none none true true (some true) 0 0).map
      (fun o => o.isSome) = Except.ok true
    ∧ (stats_factory [⟨0, none, some "g1"⟩, ⟨5, none, some "g2"⟩] exUnits exInterval
        (some NetworkNEM) none none none false false none none true true (some true) 0 0).map
      (Option.map (fun ds => ds.data)) = Except.ok (some ([] : List OpennemData)) :=
  ⟨rfl, rfl⟩

/-- Counterexample for C2: a group whose only value is the non-null number `0`
yields NO series (the `if i` truthiness filter drops zero values), refuting
"a group containing at least one non-null numeric value (including the value
zero) always yields a series". -/
theorem c2_counterexample :
    (stats_factory [⟨0, some 0, some "g"⟩] exUnits exInterval
        (some NetworkNEM) none none none false false none none true true (some true) 0 0).map
      (fun o => o.isSome) = Except.ok true
    ∧ (stats_factory [⟨0, some 0, some "g"⟩] exUnits exInterval
        (some NetworkNEM) none none none false false none none true true (some true) 0 0).map
      (Option.map (fun ds => ds.data)) = Except.ok (some ([] : List OpennemData)) :=
  ⟨rfl, rfl⟩

/-- Counterexample for C3: with group code "wind", network NEM, fuel-tech mode,
no region and no explicit id, the emitted id is "au.nem.fuel_tech.wind.energy"
— the country component is present, not omitted, so the id differs from the
claimed "nem.fuel_tech.wind.energy". -/
theorem c3_counterexample :
    (stats_factory [⟨0, some 5, some "wind"⟩] exUnits exInterval
        (some NetworkNEM) none none none false true none none true true (some true) 0 0).map
      (Option.map (fun ds => ds.data.map (fun d => d.id)))
      = Except.ok (some [some "au.nem.fuel_tech.wind.energy"])
    ∧ "au.nem.fuel_tech.wind.energy" ≠ "nem.fuel_tech.wind.energy" :=
  ⟨rfl, by decide⟩

/-- Counterexample for C4: with BOTH fuel-tech mode and a group-field enabled
and no explicit id, the emitted id is the group-field id "au.nem.energy", not
the fuel-tech id "au.nem.fuel_tech.wind.energy" — the `group_field` block
overwrites the fuel-tech id, so clause (c) beats clause (b). -/
theorem c4_counterexample :
    (stats_factory [⟨0, some 5, some "wind"⟩] exUnits exInterval
        (some NetworkNEM) none none none false true (some "fueltech") none true true
        (some true) 0 0).map
      (Option.map (fun ds => ds.data.map (fun d => d.id)))
      = Except.ok (some [some "au.nem.energy"])
    ∧ fueltech_id exUnits (some NetworkNEM) none "wind"
        = Except.ok "au.nem.fuel_tech.wind.energy"
    ∧ "au.nem.energy" ≠ "au.nem.fuel_tech.wind.energy" :=
  ⟨rfl, rfl, by decide⟩

theorem bind_ok {ε α β : Type} (a : α) (f : α → Except ε β) :
    (do let x ← (Except.ok a : Except ε α); f x) = f a := rfl

theorem regionComp_ok_of (region : Option String) (network : Option NetworkSchema)
    (h : region = none ∨ network.isSome = true) :
    ∃ rc, regionComp region network = Except.ok rc := by
  rcases h with h | h
  · subst h; exact ⟨none, rfl⟩
  · cases region with
    | none => exact ⟨none, rfl⟩
    | some r =>
      cases network with
      | none => simp at h
      | some n =>
        unfold regionComp
        by_cases hr : r = ""
        · exact ⟨none, by simp [hr]⟩
        · refine ⟨if str_to_lower r ≠ str_to_lower n.code then some (str_to_lower r) else none,
            ?_⟩
          simp [hr]

/-! ## Stage evaluation lemmas for the id-assignment pipeline -/

theorem applyRegionTag_id (region : Option String) (data : OpennemData) :
    (applyRegionTag region data).id = data.id := by
  unfold applyRegionTag
  cases region with
  | none => rfl
  | some r => by_cases hr : r = "" <;> simp [hr]

theorem applyDataId_truthy (di' : String) (h : di' ≠ "") (data : OpennemData) :
    applyDataId (some di') data = { data with id := some di' } := by
  unfold applyDataId; simp [h]

theorem applyDataId_falsy (di : Option String) (h : di = none ∨ di = some "")
    (data : OpennemData) : applyDataId di data = data := by
  rcases h with h | h <;> subst h <;> simp [applyDataId]

theorem applyFallback_skip (units : UnitDefinition) (network : Option NetworkSchema)
    (region : Option String) (gc : String) (data : OpennemData) (x : String)
    (hx : data.id = some x) (hxne : x ≠ "") :
    applyFallback units network region gc data = Except.ok data := by
  unfold applyFallback; simp [hx, hxne]

theorem applyFallback_fires (units : UnitDefinition) (network : Option NetworkSchema)
    (region : Option String) (gc : String) (data : OpennemData) (fbid : String)
    (hid : data.id.getD "" = "") (hfb : fallback_id units network region gc = Except.ok fbid) :
    applyFallback units network region gc data
      = Except.ok { data with id := some fbid, type := some units.unit_type } := by
  unfold applyFallback; rw [if_pos hid, hfb]; rfl

theorem applyGroupField_none (units : UnitDefinition) (network : Option NetworkSchema)
    (region : Option String) (igc : Bool) (gc : String) (data : OpennemData) :
    applyGroupField units network region igc gc none data = Except.ok data := rfl

theorem applyGroupField_some (units : UnitDefinition) (network : Option NetworkSchema)
    (region : Option String) (igc : Bool) (gc gf' gid : String) (data : OpennemData)
    (hg : group_field_id units network region igc gc gf' = Except.ok gid) :
    applyGroupField units network region igc gc (some gf') data
      = Except.ok { data with id := some gid, type := some units.unit_type } := by
  have h0 : applyGroupField units network region igc gc (some gf') data
      = Except.bind (group_field_id units network region igc gc gf')
          (fun gid => Except.ok { data with id := some gid, type := some units.unit_type }) :=
    rfl
  rw [h0, hg]
  rfl

theorem applyFueltech_false (units : UnitDefinition) (network : Option NetworkSchema)
    (region : Option String) (gc : String) (data : OpennemData) :
    applyFueltech units network region false gc data = Except.ok data := rfl

theorem applyFueltech_true (units : UnitDefinition) (network : Option NetworkSchema)
    (region : Option String) (gc fid : String) (data : OpennemData)
    (hf : fueltech_id units network region gc = Except.ok fid) :
    applyFueltech units network region true gc data
      = Except.ok { data with fuel_tech := some gc, id := some fid,
                              type := some units.unit_type } := by
  unfold applyFueltech; rw [hf]; rfl

theorem fueltech_id_ok (units : UnitDefinition) (network : Option NetworkSchema)
    (region : Option String) (gc : String) (rc : Option String)
    (hrc : regionComp region network = Except.ok rc) :
    ∃ v, fueltech_id units network region gc = Except.ok v := by
  unfold fueltech_id
  rw [hrc]
  exact ⟨_, rfl⟩

theorem group_field_id_ok (units : UnitDefinition) (network : Option NetworkSchema)
    (region : Option String) (igc : Bool) (gc gf' : String) (rc : Option String)
    (hrc : regionComp region network = Except.ok rc) :
    ∃ v, group_field_id units network region igc gc gf' = Except.ok v := by
  unfold group_field_id
  rw [hrc]
  exact ⟨_, rfl⟩

/-- C4 (amended): the id precedence of `stats_factory` is, highest first:
(a) an explicitly supplied (truthy) `data_id`; (c) the group-field id, when a
group-field is enabled and that id is non-empty; (b) the fuel-tech id, when
fuel-tech mode is enabled without a group-field; (d) the fallback id. In
particular, when BOTH fuel-tech mode and a group-field are enabled and no
explicit id is supplied, the emitted id is the group-field id of clause (c),
not the fuel-tech id of clause (b). -/
theorem initialData_id (units : UnitDefinition) (network : Option NetworkSchema)
    (ic : Bool) (gc : String) (history : OpennemDataHistory) :
    (initialData units network ic gc history).id = none := by
  unfold initialData
  cases network with
  | none => split <;> rfl
  | some n => split <;> rfl

theorem c4_precedence_amended (units : UnitDefinition) (network : Option NetworkSchema)
    (region : Option String) (igc : Bool) (fg : Bool) (gf : Option String)
    (di : Option String) (ic : Bool) (gc : String) (history : OpennemDataHistory)
    (hreg : region = none ∨ network.isSome = true) :
    (∀ d di', di = some di' → di' ≠ "" →
      buildData units network region igc fg gf di ic gc history = Except.ok d →
      d.id = some di')
    ∧ (∀ d gf' gfid, (di = none ∨ di = some "") → gf = some gf' →
        group_field_id units network region igc gc gf' = Except.ok gfid → gfid ≠ "" →
        buildData units network region igc fg gf di ic gc history = Except.ok d →
        d.id = some gfid)
    ∧ (∀ d ftid, (di = none ∨ di = some "") → gf = none → fg = true →
        fueltech_id units network region gc = Except.ok ftid → ftid ≠ "" →
        buildData units network region igc fg gf di ic gc history = Except.ok d →
        d.id = some ftid)
    ∧ (∀ d fbid, (di = none ∨ di = some "") → gf = none → fg = false →
        fallback_id units network region gc = Except.ok fbid →
        buildData units network region igc fg gf di ic gc history = Except.ok d →
        d.id = some fbid) := by
  obtain ⟨rc, hrc⟩ := regionComp_ok_of region network hreg
  refine ⟨?_, ?_, ?_, ?_⟩
  · intro d di' hdi hdi' hbd
    subst hdi
    unfold buildData at hbd
    obtain ⟨ftv, hft⟩ := fueltech_id_ok units network region gc rc hrc
    cases fg with
    | false =>
      rw [applyFueltech_false] at hbd
      simp only [except_bind_ok] at hbd
      cases gf with
      | none =>
        rw [applyGroupField_none] at hbd
        simp only [except_bind_ok] at hbd
        rw [applyDataId_truthy di' hdi'] at hbd
        rw [applyFallback_skip _ _ _ _ _ di' rfl hdi'] at hbd
        simp only [except_bind_ok] at hbd
        have hd := (Except.ok.injEq _ _).mp hbd.symm
        rw [hd, applyRegionTag_id]
      | some gf' =>
        obtain ⟨gv, hgv⟩ := group_field_id_ok units network region igc gc gf' rc hrc
        rw [applyGroupField_some _ _ _ _ _ _ _ _ hgv] at hbd
        simp only [except_bind_ok] at hbd
        rw [applyDataId_truthy di' hdi'] at hbd
        rw [applyFallback_skip _ _ _ _ _ di' rfl hdi'] at hbd
        simp only [except_bind_ok] at hbd
        have hd := (Except.ok.injEq _ _).mp hbd.symm
        rw [hd, applyRegionTag_id]
    | true =>
      rw [applyFueltech_true _ _ _ _ _ _ hft] at hbd
      simp only [except_bind_ok] at hbd
      cases gf with
      | none =>
        rw [applyGroupField_none] at hbd
        simp only [except_bind_ok] at hbd
        rw [applyDataId_truthy di' hdi'] at hbd
        rw [applyFallback_skip _ _ _ _ _ di' rfl hdi'] at hbd
        simp only [except_bind_ok] at hbd
        have hd := (Except.ok.injEq _ _).mp hbd.symm
        rw [hd, applyRegionTag_id]
      | some gf' =>
        obtain ⟨gv, hgv⟩ := group_field_id_ok units network region igc gc gf' rc hrc
        rw [applyGroupField_some _ _ _ _ _ _ _ _ hgv] at hbd
        simp only [except_bind_ok] at hbd
        rw [applyDataId_truthy di' hdi'] at hbd
        rw [applyFallback_skip _ _ _ _ _ di' rfl hdi'] at hbd
        simp only [except_bind_ok] at hbd
        have hd := (Except.ok.injEq _ _).mp hbd.symm
        rw [hd, applyRegionTag_id]
  · intro d gf' gfid hdi hgf hgv hgfne hbd
    subst hgf
    unfold buildData at hbd
    obtain ⟨ftv, hft⟩ := fueltech_id_ok units network region gc rc hrc
    cases fg with
    | false =>
      rw [applyFueltech_false] at hbd
      simp only [except_bind_ok] at hbd
      rw [applyGroupField_some _ _ _ _ _ _ _ _ hgv] at hbd
      simp only [except_bind_ok] at hbd
      rw [applyDataId_falsy di hdi] at hbd
      rw [applyFallback_skip _ _ _ _ _ gfid rfl hgfne] at hbd
      simp only [except_bind_ok] at hbd
      have hd := (Except.ok.injEq _ _).mp hbd.symm
      rw [hd, applyRegionTag_id]
    | true =>
      rw [applyFueltech_true _ _ _ _ _ _ hft] at hbd
      simp only [except_bind_ok] at hbd
      rw [applyGroupField_some _ _ _ _ _ _ _ _ hgv] at hbd
      simp only [except_bind_ok] at hbd
      rw [applyDataId_falsy di hdi] at hbd
      rw [applyFallback_skip _ _ _ _ _ gfid rfl hgfne] at hbd
      simp only [except_bind_ok] at hbd
      have hd := (Except.ok.injEq _ _).mp hbd.symm
      rw [hd, applyRegionTag_id]
  · intro d ftid hdi hgf hfg hft hftne hbd
    subst hgf; subst hfg
    unfold buildData at hbd
    rw [applyFueltech_true _ _ _ _ _ _ hft] at hbd
    simp only [except_bind_ok] at hbd
    rw [applyGroupField_none] at hbd
    simp only [except_bind_ok] at hbd
    rw [applyDataId_falsy di hdi] at hbd
    rw [applyFallback_skip _ _ _ _ _ ftid rfl hftne] at hbd
    simp only [except_bind_ok] at hbd
    have hd := (Except.ok.injEq _ _).mp hbd.symm
    rw [hd, applyRegionTag_id]
  · intro d fbid hdi hgf hfg hfb hbd
    subst hgf; subst hfg
    unfold buildData at hbd
    rw [applyFueltech_false] at hbd
    simp only [except_bind_ok] at hbd
    rw [applyGroupField_none] at hbd
    simp only [except_bind_ok] at hbd
    rw [applyDataId_falsy di hdi] at hbd
    rw [applyFallback_fires _ _ _ _ _ _ (by rw [initialData_id]; rfl) hfb] at hbd
    simp only [except_bind_ok] at hbd
    have hd := (Except.ok.injEq _ _).mp hbd.symm
    rw [hd, applyRegionTag_id]

/-- A concrete history fixture for the C4 witness. -/
def c4wHistory : OpennemDataHistory :=
  ⟨⟨0, none⟩, ⟨0, none⟩, "5m", [some 5]⟩

/-- The series produced by `buildData` with both fuel-tech mode and a
group-field enabled (C4 witness extractor). -/
def c4wData : OpennemData :=
  match buildData exUnits (some NetworkNEM) none false true (some "fueltech") none true
      "wind" c4wHistory with
  | Except.ok d => d
  | Except.error _ =>
      { data_type := "", units := "", history := c4wHistory, id := none, type := none,
        code := none, network := none, region := none, fuel_tech := none }

/-- Witness for C4 (amended): with both modes enabled the emitted id is the
group-field id "au.nem.energy". -/
theorem c4_precedence_amended_witness : c4wData.id = some "au.nem.energy" := by
  have h := (c4_precedence_amended exUnits (some NetworkNEM) none false true
    (some "fueltech") none true "wind" c4wHistory (Or.inr rfl)).2.1
  exact h c4wData "fueltech" "au.nem.energy" (Or.inl rfl) rfl rfl (by decide) rfl

/-- C3 (amended): with group code "wind", network NEM, fuel-tech mode, no
region and no explicit id, the emitted series id is the dot-joined string
"au.nem.fuel_tech.wind.energy" — country INCLUDED — for every timestamp and
every truthy value; the embedding is a pure function, so identical calls
yield the identical id string. -/
theorem c3_id_amended (t v : Int) (hv : v ≠ 0) :
    (stats_factory [⟨t, some v, some "wind"⟩] exUnits exInterval (some NetworkNEM) none none
        none false true none none true true (some true) 0 0).map
      (Option.map (fun ds => ds.data.map (fun d => d.id)))
      = Except.ok (some [some "au.nem.fuel_tech.wind.energy"]) := by
  have hv' : (v != 0) = true := by simpa using hv
  have h1 : String.intercalate "." ["au", "nem", "fuel_tech", "wind", "energy"]
      = "au.nem.fuel_tech.wind.energy" := rfl
  have h2 : ("au.nem.fuel_tech.wind.energy" = "") = False := by simp
  simp [Except.map, h1, h2, stats_factory, dedupFirst, processGroup, processDates, buildGroupMap, upsert, sortByKey,
    insertSorted, truthyVal, hv', castGuard, exUnits, exInterval, cast_trailing_nulls,
    trim_nulls, localizeTimestamp, make_aware, is_aware, Timestamp.astimezoneFixed,
    NetworkSchema.get_timezone, NetworkSchema.get_fixed_offset, NetworkNEM, tzTruthy,
    human_to_interval, truncDay, truncMonth, buildData, initialData, applyFueltech,
    applyGroupField, applyDataId, applyFallback, applyRegionTag, fueltech_id,
    group_field_id, fallback_id, regionComp, joinComps, joinStrs, str_to_lower,
    char_to_lower, str_starts_with, runGroups, assembleResult, createdAtStamp,
    resolveSetCode, applySetCode, applySetNetwork, applySetRegion, networkTimezone,
    get_version]

/-- Witness for C3 (amended) at timestamp 1, value 7. -/
theorem c3_id_amended_witness :
    (stats_factory [⟨1, some 7, some "wind"⟩] exUnits exInterval (some NetworkNEM) none none
        none false true none none true true (some true) 0 0).map
      (Option.map (fun ds => ds.data.map (fun d => d.id)))
      = Except.ok (some [some "au.nem.fuel_tech.wind.energy"]) :=
  c3_id_amended 1 7 (by norm_num)

theorem mem_insertSorted (p q : Int × Option Int) (l : List (Int × Option Int)) :
    p ∈ insertSorted q l ↔ p = q ∨ p ∈ l := by
  induction l with
  | nil => simp [insertSorted]
  | cons a tl ih =>
    unfold insertSorted
    by_cases h : q.1 ≤ a.1
    · simp [h]
    · simp only [if_neg h, List.mem_cons, ih]
      tauto

theorem mem_sortByKey (p : Int × Option Int) (l : List (Int × Option Int)) :
    p ∈ sortByKey l ↔ p ∈ l := by
  induction l with
  | nil => simp [sortByKey]
  | cons a tl ih =>
    unfold sortByKey at ih ⊢
    simp only [List.foldr_cons, mem_insertSorted, ih, List.mem_cons]

theorem mem_upsert (p : Int × Option Int) (acc : List (Int × Option Int)) (k : Int)
    (v : Option Int) (hp : p ∈ upsert acc k v) : p ∈ acc ∨ p.2 = v := by
  unfold upsert at hp
  split at hp
  · rcases List.mem_map.mp hp with ⟨q, hq, hfq⟩
    by_cases hqk : (q.1 == k) = true
    · right; rw [← hfq]; simp [hqk]
    · left; rw [← hfq]; simpa [hqk] using hq
  · rcases List.mem_append.mp hp with h | h
    · exact Or.inl h
    · right; simp at h; simp [h]

theorem buildGroupMap_mem (stats : List DataQueryResult) (gc : String)
    (p : Int × Option Int) (hp : p ∈ buildGroupMap stats gc) :
    ∃ s ∈ stats, s.result = p.2 := by
  unfold buildGroupMap at hp
  revert hp
  suffices h : ∀ acc, p ∈ List.foldl
      (fun acc s => if s.group_by == some gc then upsert acc s.interval s.result else acc)
      acc stats → (∃ s ∈ stats, s.result = p.2) ∨ p ∈ acc by
    intro hp
    rcases h [] hp with h | h
    · exact h
    · simp at h
  induction stats with
  | nil => intro acc h; exact Or.inr h
  | cons s tl ih =>
    intro acc h
    simp only [List.foldl_cons] at h
    rcases ih ((if (s.group_by == some gc) = true then upsert acc s.interval s.result
        else acc)) h with h2 | h2
    · left
      rcases h2 with ⟨s', hs', hr⟩
      exact ⟨s', List.mem_cons_of_mem s hs', hr⟩
    · by_cases hs : (s.group_by == some gc) = true
      · rw [if_pos hs] at h2
        rcases mem_upsert p acc s.interval s.result h2 with h3 | h3
        · exact Or.inr h3
        · exact Or.inl ⟨s, List.mem_cons_self s tl, h3.symm⟩
      · rw [if_neg hs] at h2
        exact Or.inr h2

/-- Offset truthiness context: if a network is supplied it must have a truthy
fixed offset, else `get_timezone` raises and the whole call errors. -/
def networkOffsetOk : Option NetworkSchema → Prop
  | none => True
  | some n => n.offset.getD 0 ≠ 0

theorem processGroup_skip_of_allFalsy (stats : List DataQueryResult)
    (units : UnitDefinition) (interval : TimeInterval) (network : Option NetworkSchema)
    (timezone : Option Tz) (region : Option String) (igc fg : Bool)
    (gf di : Option String) (localize ic : Bool) (cn : Option Bool) (gc : String)
    (hall : ∀ s ∈ stats, truthyVal s.result = false) :
    processGroup stats units interval network timezone region igc fg gf di localize ic cn gc
      = Except.ok GroupStep.skip := by
  simp only [processGroup]
  have hfilter : ((sortByKey (buildGroupMap stats gc)).map (fun p => p.2)).filter truthyVal
      = [] := by
    rw [List.filter_eq_nil_iff]
    intro v hv
    rcases List.mem_map.mp hv with ⟨p, hp, hpv⟩
    rw [mem_sortByKey] at hp
    rcases buildGroupMap_mem stats gc p hp with ⟨s, hs, hr⟩
    rw [← hpv, ← hr]
    simp [hall s hs]
  rw [hfilter]
  rfl

theorem runGroups_all_skip (f : String → Except String GroupStep) (l : List String)
    (h : ∀ gc ∈ l, f gc = Except.ok GroupStep.skip) :
    runGroups f l = Except.ok (some []) := by
  induction l with
  | nil => rfl
  | cons gc rest ih =>
    simp only [runGroups]
    rw [h gc (List.mem_cons_self gc rest)]
    simp only [except_bind_ok]
    exact ih (fun g hg => h g (List.mem_cons_of_mem gc hg))

theorem applySetRegion_data (region : Option String) (s : OpennemDataSet) :
    (applySetRegion region s).data = s.data := by
  unfold applySetRegion
  cases region with
  | none => rfl
  | some r => by_cases hr : r = "" <;> simp [hr]

theorem applySetNetwork_data (network : Option NetworkSchema) (s : OpennemDataSet) :
    (applySetNetwork network s).data = s.data := by
  unfold applySetNetwork
  cases network <;> rfl

theorem applySetCode_data (ic : Bool) (c : Option String) (s : OpennemDataSet) :
    (applySetCode ic c s).data = s.data := by
  unfold applySetCode
  split <;> rfl

theorem createdAtStamp_ok (network : Option NetworkSchema) (now so : Int)
    (hnet : networkOffsetOk network) :
    ∃ t, createdAtStamp network now so = Except.ok t := by
  cases network with
  | none => exact ⟨⟨now, none⟩, rfl⟩
  | some n =>
    have ho : n.offset.getD 0 ≠ 0 := hnet
    refine ⟨⟨now - so + n.offset.getD 0, some (Tz.fixedOffset (n.offset.getD 0))⟩, ?_⟩
    simp only [createdAtStamp]
    rw [get_timezone_ok n ho]
    rfl

theorem assembleResult_some_data (units : UnitDefinition) (network : Option NetworkSchema)
    (code region : Option String) (ic : Bool) (now so : Int) (sg : List OpennemData)
    (hnet : networkOffsetOk network) :
    (assembleResult units network code region ic now so (some sg)).map
      (Option.map (fun ds => ds.data)) = Except.ok (some sg) := by
  obtain ⟨t, ht⟩ := createdAtStamp_ok network now so hnet
  unfold assembleResult
  rw [ht]
  simp only [except_bind_ok, Except.map, Option.map, applySetRegion_data,
    applySetNetwork_data, applySetCode_data]

/-- C1 (amended): when zero groups survive the truthiness filter — in
particular whenever every raw value is falsy (null or zero) — `stats_factory`
returns a PRESENT `OpennemDataSet` whose series list is empty, not null. (The
`return None` inside the loop is unreachable: a surviving group always has a
non-null value, which survives trimming.) -/
theorem c1_empty_set_amended (stats : List DataQueryResult) (units : UnitDefinition)
    (interval : TimeInterval) (network : Option NetworkSchema) (timezone : Option Tz)
    (code region : Option String) (igc fg : Bool) (gf di : Option String)
    (localize ic : Bool) (cn : Option Bool) (now so : Int)
    (hnet : networkOffsetOk network)
    (hall : ∀ s ∈ stats, truthyVal s.result = false) :
    (stats_factory stats units interval network timezone code region igc fg gf di
        localize ic cn now so).map (Option.map (fun ds => ds.data))
      = Except.ok (some ([] : List OpennemData)) := by
  have hrun : ∀ tz', runGroups (processGroup stats units interval network tz' region
      igc fg gf di localize ic cn)
      (dedupFirst (stats.filterMap (fun s =>
        match s.group_by with
        | some g => if g ≠ "" then some g else none
        | none => none))) = Except.ok (some []) := by
    intro tz'
    apply runGroups_all_skip
    intro gc _
    exact processGroup_skip_of_allFalsy stats units interval network tz' region igc fg
      gf di localize ic cn gc hall
  cases network with
  | none =>
    simp only [stats_factory, networkTimezone, except_bind_ok, hrun]
    exact assembleResult_some_data units none code region ic now so [] hnet
  | some n =>
    have ho : n.offset.getD 0 ≠ 0 := hnet
    simp only [stats_factory, networkTimezone]
    rw [get_timezone_ok n ho]
    simp only [except_bind_ok, hrun]
    exact assembleResult_some_data units (some n) code region ic now so [] hnet

/-- Witness for C1 (amended): a single all-null group with no network. -/
theorem c1_empty_set_amended_witness :
    (stats_factory [⟨0, none, some "g"⟩] exUnits exInterval none none none none
        false false none none true true (some true) 0 0).map
      (Option.map (fun ds => ds.data)) = Except.ok (some ([] : List OpennemData)) := by
  apply c1_empty_set_amended
  · trivial
  · intro s hs
    simp at hs
    rw [hs]
    rfl

theorem dropWhile_head_false {α : Type} (p : α → Bool) (l : List α) (v : α) (rest : List α)
    (h : l.dropWhile p = v :: rest) : p v = false := by
  induction l with
  | nil => simp at h
  | cons a tl ih =>
    rw [List.dropWhile_cons] at h
    split at h
    · exact ih h
    · rename_i ha
      injection h with h1 _
      subst h1
      simpa using ha

theorem mem_dropWhile_of_false {α : Type} (p : α → Bool) (l : List α) (x : α)
    (hx : x ∈ l) (hpx : p x = false) : x ∈ l.dropWhile p := by
  induction l with
  | nil => simp at hx
  | cons a tl ih =>
    rw [List.dropWhile_cons]
    split
    · rename_i ha
      cases hx with
      | head => rw [hpx] at ha; cases ha
      | tail _ hmem => exact ih hmem
    · exact hx

theorem cast_keeps_nonnull (l : List (Option Int)) (h : ∃ v ∈ l, v ≠ none) :
    ∃ v ∈ cast_trailing_nulls l, v ≠ none := by
  simp only [cast_trailing_nulls]
  split
  · exact h
  · rename_i v rest' heq
    have hv : (fun w : Option Int => w == none) v = false :=
      dropWhile_head_false _ l.reverse v rest' heq
    refine ⟨v, ?_, by simpa using hv⟩
    rw [List.mem_reverse, List.mem_append]
    right
    rw [heq]
    exact List.mem_cons_self v rest'

theorem trim_nulls_ne_nil (l : List (Int × Option Int))
    (h : ∃ p ∈ l, p.2 ≠ none) : trim_nulls l ≠ [] := by
  obtain ⟨p, hp, hp2⟩ := h
  unfold trim_nulls
  intro hc
  have hq : (fun q : Int × Option Int => q.2 == none) p = false := by simpa using hp2
  have h1 : p ∈ l.dropWhile (fun q => q.2 == none) :=
    mem_dropWhile_of_false _ l p hp hq
  have h2 : p ∈ (l.dropWhile (fun q => q.2 == none)).reverse.dropWhile
      (fun q => q.2 == none) :=
    mem_dropWhile_of_false _ _ p (by simpa using h1) hq
  rw [List.reverse_eq_nil_iff] at hc
  rw [hc] at h2
  simp at h2

theorem zip_exists_snd (l1 : List Int) (l2 : List (Option Int))
    (hlen : l1.length = l2.length) (v : Option Int) (hv : v ∈ l2) (hnn : v ≠ none) :
    ∃ p ∈ List.zip l1 l2, p.2 ≠ none := by
  induction l2 generalizing l1 with
  | nil => simp at hv
  | cons b tl ih =>
    cases l1 with
    | nil => simp at hlen
    | cons a l1tl =>
      cases hv with
      | head => exact ⟨(a, v), by simp [List.zip_cons_cons], hnn⟩
      | tail _ hmem =>
        obtain ⟨p, hp, hp2⟩ := ih l1tl (by simpa using hlen) hmem
        exact ⟨p, by simp [List.zip_cons_cons, hp], hp2⟩

theorem localizeTimestamp_fixed (loc : Bool) (n : NetworkSchema) (x : Int)
    (ho : n.offset.getD 0 ≠ 0) :
    localizeTimestamp loc (some (Tz.fixedOffset (n.offset.getD 0))) (some n) ⟨x, none⟩
      = Except.ok ⟨x, some (Tz.fixedOffset (n.offset.getD 0))⟩ := by
  cases loc with
  | true =>
    simp [localizeTimestamp, make_aware, is_aware, Timestamp.astimezoneFixed, ho]
  | false =>
    simp [localizeTimestamp, make_aware, is_aware, NetworkSchema.get_fixed_offset, ho]

theorem fallback_id_ok (units : UnitDefinition) (network : Option NetworkSchema)
    (region : Option String) (gc : String) (rc : Option String)
    (hrc : regionComp region network = Except.ok rc) :
    ∃ v, fallback_id units network region gc = Except.ok v := by
  unfold fallback_id
  rw [hrc]
  exact ⟨_, rfl⟩

theorem applyFueltech_ok_hist (units : UnitDefinition) (network : Option NetworkSchema)
    (region : Option String) (fg : Bool) (gc : String) (data : OpennemData)
    (rc : Option String) (hrc : regionComp region network = Except.ok rc) :
    ∃ d', applyFueltech units network region fg gc data = Except.ok d'
      ∧ d'.history = data.history := by
  cases fg with
  | false => exact ⟨data, rfl, rfl⟩
  | true =>
    obtain ⟨v, hv⟩ := fueltech_id_ok units network region gc rc hrc
    exact ⟨_, applyFueltech_true units network region gc v data hv, rfl⟩

theorem applyGroupField_ok_hist (units : UnitDefinition) (network : Option NetworkSchema)
    (region : Option String) (igc : Bool) (gc : String) (gf : Option String)
    (data : OpennemData) (rc : Option String)
    (hrc : regionComp region network = Except.ok rc) :
    ∃ d', applyGroupField units network region igc gc gf data = Except.ok d'
      ∧ d'.history = data.history := by
  cases gf with
  | none => exact ⟨data, rfl, rfl⟩
  | some g =>
    obtain ⟨v, hv⟩ := group_field_id_ok units network region igc gc g rc hrc
    exact ⟨_, applyGroupField_some units network region igc gc g v data hv, rfl⟩

theorem applyDataId_history (di : Option String) (data : OpennemData) :
    (applyDataId di data).history = data.history := by
  cases di with
  | none => rfl
  | some d =>
    simp only [applyDataId]
    split <;> rfl

theorem applyFallback_ok_hist (units : UnitDefinition) (network : Option NetworkSchema)
    (region : Option String) (gc : String) (data : OpennemData)
    (rc : Option String) (hrc : regionComp region network = Except.ok rc) :
    ∃ d', applyFallback units network region gc data = Except.ok d'
      ∧ d'.history = data.history := by
  unfold applyFallback
  by_cases hid : data.id.getD "" = ""
  · obtain ⟨v, hv⟩ := fallback_id_ok units network region gc rc hrc
    rw [if_pos hid, hv]
    exact ⟨_, rfl, rfl⟩
  · rw [if_neg hid]
    exact ⟨data, rfl, rfl⟩

theorem applyRegionTag_history (region : Option String) (data : OpennemData) :
    (applyRegionTag region data).history = data.history := by
  cases region with
  | none => rfl
  | some r =>
    simp only [applyRegionTag]
    split <;> rfl

theorem initialData_history (units : UnitDefinition) (network : Option NetworkSchema)
    (ic : Bool) (gc : String) (history : OpennemDataHistory) :
    (initialData units network ic gc history).history = history := by
  unfold initialData
  cases network with
  | none => split <;> rfl
  | some n => split <;> rfl

theorem buildData_ok_hist (units : UnitDefinition) (n : NetworkSchema)
    (region : Option String) (igc fg : Bool) (gf di : Option String) (ic : Bool)
    (gc : String) (history : OpennemDataHistory) :
    ∃ d, buildData units (some n) region igc fg gf di ic gc history = Except.ok d
      ∧ d.history = history := by
  obtain ⟨rc, hrc⟩ := regionComp_ok_of region (some n) (Or.inr rfl)
  obtain ⟨d1, hd1, hh1⟩ := applyFueltech_ok_hist units (some n) region fg gc
    (initialData units (some n) ic gc history) rc hrc
  obtain ⟨d2, hd2, hh2⟩ := applyGroupField_ok_hist units (some n) region igc gc gf d1 rc hrc
  obtain ⟨d3, hd3, hh3⟩ := applyFallback_ok_hist units (some n) region gc
    (applyDataId di d2) rc hrc
  refine ⟨applyRegionTag region d3, ?_, ?_⟩
  · unfold buildData
    rw [hd1]
    simp only [except_bind_ok]
    rw [hd2]
    simp only [except_bind_ok]
    rw [hd3]
    simp only [except_bind_ok]
  · rw [applyRegionTag_history, hh3, applyDataId_history, hh2, hh1, initialData_history]

theorem processGroup_skip_of_falsyMap (stats : List DataQueryResult)
    (units : UnitDefinition) (interval : TimeInterval) (network : Option NetworkSchema)
    (timezone : Option Tz) (region : Option String) (igc fg : Bool)
    (gf di : Option String) (localize ic : Bool) (cn : Option Bool) (gc : String)
    (hall : ∀ p ∈ buildGroupMap stats gc, truthyVal p.2 = false) :
    processGroup stats units interval network timezone region igc fg gf di localize ic cn gc
      = Except.ok GroupStep.skip := by
  simp only [processGroup]
  have hfilter : ((sortByKey (buildGroupMap stats gc)).map (fun p => p.2)).filter truthyVal
      = [] := by
    rw [List.filter_eq_nil_iff]
    intro v hv
    rcases List.mem_map.mp hv with ⟨p, hp, hpv⟩
    rw [mem_sortByKey] at hp
    rw [← hpv]
    simp [hall p hp]
  rw [hfilter]
  rfl

theorem processGroup_emit_of_truthy (stats : List DataQueryResult)
    (units : UnitDefinition) (interval : TimeInterval) (n : NetworkSchema)
    (region : Option String) (igc fg : Bool) (gf di : Option String)
    (localize ic : Bool) (cn : Option Bool) (gc : String)
    (ho : n.offset.getD 0 ≠ 0)
    (hex : ∃ p ∈ buildGroupMap stats gc, truthyVal p.2 = true) :
    ∃ d, processGroup stats units interval (some n)
        (some (Tz.fixedOffset (n.offset.getD 0))) region igc fg gf di localize ic cn gc
        = Except.ok (GroupStep.emit d)
      ∧ d.history.start.tz = some (Tz.fixedOffset (n.offset.getD 0))
      ∧ d.history.last.tz = some (Tz.fixedOffset (n.offset.getD 0)) := by
  obtain ⟨p, hp, hptruthy⟩ := hex
  simp only [processGroup]
  -- the truthiness filter is non-empty
  have hvmem : p.2 ∈ (sortByKey (buildGroupMap stats gc)).map (fun q => q.2) :=
    List.mem_map.mpr ⟨p, (mem_sortByKey p _).mpr hp, rfl⟩
  have hfilter : ((sortByKey (buildGroupMap stats gc)).map (fun q => q.2)).filter truthyVal
      ≠ [] := by
    intro hc
    rw [List.filter_eq_nil_iff] at hc
    exact absurd hptruthy (by simpa using hc p.2 hvmem)
  have hlen0 : ¬(((sortByKey (buildGroupMap stats gc)).map (fun q => q.2)).filter
      truthyVal).length = 0 := by
    have := List.length_pos.mpr hfilter
    omega
  rw [if_neg hlen0]
  -- the (possibly cast) value list still holds a non-null value
  have hnn : p.2 ≠ none := by
    intro hc; rw [hc] at hptruthy; simp [truthyVal] at hptruthy
  have hpost : ∃ v ∈ (if castGuard units cn then
      cast_trailing_nulls ((sortByKey (buildGroupMap stats gc)).map (fun q => q.2))
      else (sortByKey (buildGroupMap stats gc)).map (fun q => q.2)), v ≠ none := by
    split
    · exact cast_keeps_nonnull _ ⟨p.2, hvmem, hnn⟩
    · exact ⟨p.2, hvmem, hnn⟩
  -- hence the trimmed association list is non-empty
  have hlen : ((sortByKey (buildGroupMap stats gc)).map (fun q => q.1)).length
      = (if castGuard units cn then
          cast_trailing_nulls ((sortByKey (buildGroupMap stats gc)).map (fun q => q.2))
        else (sortByKey (buildGroupMap stats gc)).map (fun q => q.2)).length := by
    split
    · rw [cast_trailing_nulls_length]
      simp
    · simp
  obtain ⟨v, hv, hvnn⟩ := hpost
  obtain ⟨q, hq, hqnn⟩ := zip_exists_snd _ _ hlen v hv hvnn
  have htrim := trim_nulls_ne_nil _ ⟨q, hq, hqnn⟩
  have hdates : (trim_nulls (List.zip ((sortByKey (buildGroupMap stats gc)).map (fun q => q.1))
      (if castGuard units cn then
        cast_trailing_nulls ((sortByKey (buildGroupMap stats gc)).map (fun q => q.2))
      else (sortByKey (buildGroupMap stats gc)).map (fun q => q.2)))).map (fun q => q.1)
      ≠ [] := by
    simpa using htrim
  rcases hmatch : (trim_nulls (List.zip ((sortByKey (buildGroupMap stats gc)).map (fun q => q.1))
      (if castGuard units cn then
        cast_trailing_nulls ((sortByKey (buildGroupMap stats gc)).map (fun q => q.2))
      else (sortByKey (buildGroupMap stats gc)).map (fun q => q.2)))).map (fun q => q.1)
      with _ | ⟨d0, ds⟩
  · exact absurd hmatch hdates
  · rw [hmatch]
    simp only [processDates]
    rw [localizeTimestamp_fixed localize n (List.foldl min d0 ds) ho]
    simp only [except_bind_ok]
    rw [localizeTimestamp_fixed localize n (List.foldl max d0 ds) ho]
    simp only [except_bind_ok]
    obtain ⟨dd, hdd, hhist⟩ := buildData_ok_hist units n region igc fg gf di ic gc _
    rw [hdd]
    simp only [except_bind_ok]
    refine ⟨dd, rfl, ?_, ?_⟩ <;> rw [hhist] <;>
      by_cases h1 : (interval == human_to_interval "1d") = true <;>
      by_cases h2 : (interval == human_to_interval "1M") = true <;>
      simp [h1, h2, truncDay, truncMonth]

/-- C2 (amended): a group is skipped (no series emitted) exactly when every
value in its timestamp-to-value mapping is falsy — null OR zero — under
Python truthiness; a group with at least one non-null AND non-zero value
always emits a series. (The claim's "including the value zero" is refuted by
`c2_counterexample`.) -/
theorem c2_emit_iff_amended (stats : List DataQueryResult) (units : UnitDefinition)
    (interval : TimeInterval) (n : NetworkSchema) (region : Option String)
    (igc fg : Bool) (gf di : Option String) (localize ic : Bool) (cn : Option Bool)
    (gc : String) (ho : n.offset.getD 0 ≠ 0) :
    (processGroup stats units interval (some n) (some (Tz.fixedOffset (n.offset.getD 0)))
        region igc fg gf di localize ic cn gc = Except.ok GroupStep.skip
      ↔ ∀ p ∈ buildGroupMap stats gc, truthyVal p.2 = false)
    ∧ ((∃ p ∈ buildGroupMap stats gc, truthyVal p.2 = true) →
        ∃ d, processGroup stats units interval (some n)
          (some (Tz.fixedOffset (n.offset.getD 0))) region igc fg gf di localize ic cn gc
          = Except.ok (GroupStep.emit d)) := by
  constructor
  · constructor
    · intro hskip
      by_contra hc
      push_neg at hc
      obtain ⟨p, hp, hpt⟩ := hc
      have hpt' : truthyVal p.2 = true := by
        cases htv : truthyVal p.2 with
        | true => rfl
        | false => exact absurd htv hpt
      obtain ⟨d, hd, -, -⟩ := processGroup_emit_of_truthy stats units interval n region
        igc fg gf di localize ic cn gc ho ⟨p, hp, hpt'⟩
      rw [hskip] at hd
      simp at hd
    · intro hall
      exact processGroup_skip_of_falsyMap stats units interval (some n)
        (some (Tz.fixedOffset (n.offset.getD 0))) region igc fg gf di localize ic cn gc hall
  · intro hex
    obtain ⟨d, hd, -, -⟩ := processGroup_emit_of_truthy stats units interval n region
      igc fg gf di localize ic cn gc ho hex
    exact ⟨d, hd⟩

/-- Witness for C2 (amended): the all-zero group is skipped, and a group with
the value 3 emits a series. -/
theorem c2_emit_iff_amended_witness :
    processGroup [⟨0, some 0, some "g"⟩] exUnits exInterval (some NetworkNEM)
      (some (Tz.fixedOffset 600)) none false false none none true true (some true) "g"
      = Except.ok GroupStep.skip
    ∧ ∃ d, processGroup [⟨0, some 3, some "g"⟩] exUnits exInterval (some NetworkNEM)
      (some (Tz.fixedOffset 600)) none false false none none true true (some true) "g"
      = Except.ok (GroupStep.emit d) := by
  constructor
  · apply (c2_emit_iff_amended [⟨0, some 0, some "g"⟩] exUnits exInterval NetworkNEM
      none false false none none true true (some true) "g" (by decide)).1.mpr
    intro p hp
    have hbm : buildGroupMap [⟨0, some 0, some "g"⟩] "g" = [(0, some 0)] := rfl
    rw [hbm] at hp
    simp at hp
    rw [hp]
    rfl
  · apply (c2_emit_iff_amended [⟨0, some 3, some "g"⟩] exUnits exInterval NetworkNEM
      none false false none none true true (some true) "g" (by decide)).2
    exact ⟨(0, some 3), by rw [show buildGroupMap [⟨0, some 3, some "g"⟩] "g"
      = [(0, some 3)] from rfl]; simp, rfl⟩

theorem runGroups_mem (f : String → Except String GroupStep) (l : List String)
    (ds : List OpennemData) (h : runGroups f l = Except.ok (some ds)) (d : OpennemData)
    (hd : d ∈ ds) : ∃ gc ∈ l, f gc = Except.ok (GroupStep.emit d) := by
  induction l generalizing ds with
  | nil =>
    simp only [runGroups] at h
    have : ds = [] := by simpa using h.symm
    subst this
    simp at hd
  | cons gc rest ih =>
    simp only [runGroups] at h
    rcases hf : f gc with e | step
    · rw [hf] at h; simp at h
    · rw [hf] at h
      simp only [except_bind_ok] at h
      cases step with
      | skip =>
        obtain ⟨g, hg, hfg⟩ := ih ds h hd
        exact ⟨g, List.mem_cons_of_mem gc hg, hfg⟩
      | abortNone => simp at h
      | emit d' =>
        rcases hr : runGroups f rest with e | o
        · rw [hr] at h; simp at h
        · rw [hr] at h
          simp only [except_bind_ok] at h
          cases o with
          | none => simp at h
          | some ds' =>
            have hds : d' :: ds' = ds := by simpa using h
            rw [← hds] at hd
            cases hd with
            | head => exact ⟨gc, List.mem_cons_self gc rest, hf⟩
            | tail _ hmem =>
              obtain ⟨g, hg, hfg⟩ := ih ds' (by rw [hr]) hmem
              exact ⟨g, List.mem_cons_of_mem gc hg, hfg⟩

theorem processGroup_emit_tz (stats : List DataQueryResult) (units : UnitDefinition)
    (interval : TimeInterval) (n : NetworkSchema) (region : Option String)
    (igc fg : Bool) (gf di : Option String) (localize ic : Bool) (cn : Option Bool)
    (gc : String) (d : OpennemData) (ho : n.offset.getD 0 ≠ 0)
    (hemit : processGroup stats units interval (some n)
      (some (Tz.fixedOffset (n.offset.getD 0))) region igc fg gf di localize ic cn gc
      = Except.ok (GroupStep.emit d)) :
    d.history.start.tz = some (Tz.fixedOffset (n.offset.getD 0))
    ∧ d.history.last.tz = some (Tz.fixedOffset (n.offset.getD 0)) := by
  by_cases hall : ∀ p ∈ buildGroupMap stats gc, truthyVal p.2 = false
  · rw [processGroup_skip_of_falsyMap stats units interval (some n)
      (some (Tz.fixedOffset (n.offset.getD 0))) region igc fg gf di localize ic cn gc
      hall] at hemit
    simp at hemit
  · push_neg at hall
    obtain ⟨p, hp, hpt⟩ := hall
    have hpt' : truthyVal p.2 = true := by
      cases htv : truthyVal p.2 with
      | true => rfl
      | false => exact absurd htv hpt
    obtain ⟨d', hd', h1, h2⟩ := processGroup_emit_of_truthy stats units interval n region
      igc fg gf di localize ic cn gc ho ⟨p, hp, hpt'⟩
    rw [hemit] at hd'
    have : d = d' := by simpa using hd'
    subst this
    exact ⟨h1, h2⟩

theorem assembleResult_some_inv (units : UnitDefinition) (network : Option NetworkSchema)
    (code region : Option String) (ic : Bool) (now so : Int) (sg : List OpennemData)
    (ds : OpennemDataSet) (hnet : networkOffsetOk network)
    (h : assembleResult units network code region ic now so (some sg)
      = Except.ok (some ds)) : ds.data = sg := by
  obtain ⟨t, ht⟩ := createdAtStamp_ok network now so hnet
  simp only [assembleResult] at h
  rw [ht] at h
  simp only [except_bind_ok] at h
  have hds : applySetRegion region (applySetNetwork network (applySetCode ic
      (resolveSetCode code network region)
      { type := units.unit_type, data := sg, created_at := t, version := get_version,
        code := none, network := none, region := none })) = ds := by simpa using h
  rw [← hds, applySetRegion_data, applySetNetwork_data, applySetCode_data]

/-- C7: for every network that defines a truthy fixed UTC offset (minutes),
`get_timezone` yields that fixed offset — not the configured named timezone —
and every series emitted by `stats_factory` carries start/last timestamps
localized to exactly that fixed offset. -/
theorem c7_fixed_offset (stats : List DataQueryResult) (units : UnitDefinition)
    (interval : TimeInterval) (n : NetworkSchema) (o : Int) (timezone : Option Tz)
    (code region : Option String) (igc fg : Bool) (gf di : Option String)
    (localize ic : Bool) (cn : Option Bool) (now so : Int) (ds : OpennemDataSet)
    (ho : n.offset = some o) (ho0 : o ≠ 0)
    (hres : stats_factory stats units interval (some n) timezone code region igc fg gf di
      localize ic cn now so = Except.ok (some ds)) :
    n.get_timezone = Except.ok (Tz.fixedOffset o)
    ∧ ∀ d ∈ ds.data, d.history.start.tz = some (Tz.fixedOffset o)
        ∧ d.history.last.tz = some (Tz.fixedOffset o) := by
  have hgd : n.offset.getD 0 = o := by rw [ho]; rfl
  have hne : n.offset.getD 0 ≠ 0 := by rw [hgd]; exact ho0
  constructor
  · rw [get_timezone_ok n hne, hgd]
  · simp only [stats_factory, networkTimezone] at hres
    rw [get_timezone_ok n hne] at hres
    simp only [except_bind_ok] at hres
    rcases hrg : runGroups (processGroup stats units interval (some n)
        (some (Tz.fixedOffset (n.offset.getD 0))) region igc fg gf di localize ic cn)
        (dedupFirst (stats.filterMap (fun s =>
          match s.group_by with
          | some g => if g ≠ "" then some g else none
          | none => none))) with e | o'
    · rw [hrg] at hres; simp at hres
    · rw [hrg] at hres
      simp only [except_bind_ok] at hres
      cases o' with
      | none => simp [assembleResult] at hres
      | some sg =>
        have hdata : ds.data = sg :=
          assembleResult_some_inv units (some n) code region ic now so sg ds hne hres
        intro d hd
        rw [hdata] at hd
        obtain ⟨gc, -, hemit⟩ := runGroups_mem _ _ sg hrg d hd
        have := processGroup_emit_tz stats units interval n region igc fg gf di localize
          ic cn gc d hne hemit
        rw [hgd] at this
        exact this

/-- Extractor for the C7 witness: the data set produced by a concrete
`stats_factory` call on NetworkNEM (offset 600, named zone also configured). -/
def c7wSet : OpennemDataSet :=
  match stats_factory [⟨0, some 7, some "wind"⟩] exUnits exInterval (some NetworkNEM) none
      none none false true none none true true (some true) 0 0 with
  | Except.ok (some ds) => ds
  | _ => { type := "", data := [], created_at := ⟨0, none⟩, version := "", code := none,
           network := none, region := none }

/-- The single series of the C7 witness data set. -/
def c7wFirst : OpennemData :=
  match c7wSet.data with
  | d :: _ => d
  | [] => { data_type := "", units := "", history := ⟨⟨0, none⟩, ⟨0, none⟩, "5m", []⟩,
            id := none, type := none, code := none, network := none, region := none,
            fuel_tech := none }

/-- Witness for C7: on NetworkNEM the timezone is the fixed offset +600 minutes
and the emitted series carries it on both endpoints. -/
theorem c7_fixed_offset_witness :
    NetworkNEM.get_timezone = Except.ok (Tz.fixedOffset 600)
    ∧ c7wFirst.history.start.tz = some (Tz.fixedOffset 600)
    ∧ c7wFirst.history.last.tz = some (Tz.fixedOffset 600) := by
  have h := c7_fixed_offset [⟨0, some 7, some "wind"⟩] exUnits exInterval NetworkNEM 600
    none none none false true none none true true (some true) 0 0 c7wSet rfl (by decide) rfl
  have hmem : c7wFirst ∈ c7wSet.data := by
    have hl : c7wSet.data = [c7wFirst] := rfl
    rw [hl]
    exact List.mem_singleton.mpr rfl
  exact ⟨h.1, (h.2 c7wFirst hmem).1, (h.2 c7wFirst hmem).2⟩
